import Mathlib

/-!
Verification of the rough-py sketch-generation core against its specification.

The Python sources are shallowly embedded: Python floats are idealized as exact
rationals or reals, Python's unbounded nonnegative integers as naturals, and the
two sources of randomness are made explicit:

* the seeded LCG attached to a `ResolvedOptions` is modelled either directly
  (section on the seeded random source) or as a value stream `us : ℕ → ℝ`
  with a threaded consumption index, and
* Python's process-global `random.random()` (imported by the dot filler) is
  modelled as a second stream `ug : ℕ → ℝ` with its own threaded index; two
  "independent generations" share the seed stream but not the global stream.

While loops of the source are embedded with an explicit iteration budget (fuel)
that is computed from the loop bounds; the termination theorems show the budget
is never exhausted in the cases the claims are about.
-/

namespace RoughPy

/-! ### Seeded random source, from src/rough/math.py (class Random) -/

/-- One state update of `Random.next` (src/rough/math.py line 48):
`self._state = (self._state * 48271) % 2147483647`.  Python integers are
unbounded and all states arising here are nonnegative, so the state is a
natural number. -/
def lcgNext (s : ℕ) : ℕ := s * 48271 % 2147483647

/-- The body of `Random.next` (src/rough/math.py lines 37-49): if the current
state is zero the generator falls back to Python's unseeded `random.random()`,
modelled as `none` (a value not determined by the seed); otherwise it advances
the state and returns `state / 2147483647` as an exact rational together with
the new state. -/
def randomNext (s : ℕ) : Option (ℚ × ℕ) :=
  if s = 0 then none else some ((lcgNext s : ℚ) / 2147483647, lcgNext s)

/-- State and value after `k` successive calls to `next()` starting from state
`s`.  `some (v, s')` carries the value returned by the last of the `k` calls
(`v = 0` for `k = 0`, where no call has been made) and the state afterwards;
`none` records that some call hit the unseeded fallback. -/
def randomCalls (s : ℕ) : ℕ → Option (ℚ × ℕ)
  | 0 => some (0, s)
  | k + 1 => (randomCalls s k).bind fun p => randomNext p.2

/-- Modelled from the spec (section 4.2): the state recurrence `s₀ = seed`,
`sₙ₊₁ = (sₙ * 48271) mod (2³¹−1)`. -/
def specState (seed : ℕ) : ℕ → ℕ
  | 0 => seed
  | n + 1 => specState seed n * 48271 % (2 ^ 31 - 1)

/-! ### Options resolution: the stroke/fill visibility invariants
(src/rough/core.py `ResolvedOptions.__init__`, src/rough/generator.py `RoughGenerator._o`) -/

/-- The `stroke`, `fill` and `strokeWidth` fields of a caller-supplied
`Options` record (src/rough/core.py, class Options); `none` models Python's
`None` ("absent").  The remaining ~30 fields play no part in the visibility
invariants the claim is about and are omitted. -/
structure OptionsSF where
  stroke : Option String
  fill : Option String
  strokeWidth : Option ℚ

/-- The same fields of a `ResolvedOptions` after defaulting: `stroke` and
`strokeWidth` are always set, `fill` may remain `None`. -/
structure ResolvedSF where
  stroke : String
  fill : Option String
  strokeWidth : ℚ
deriving DecidableEq

/-- Python's emptiness test `fill in [None, "", "none"]` used by invariants 2
and 3 (src/rough/core.py lines 224-234, src/rough/generator.py lines 99-106). -/
def fillEmpty (f : Option String) : Bool :=
  f = none || f = some "" || f = some "none"

/-- The three visibility invariants applied after defaulting or merging, in
source order (src/rough/generator.py lines 96-106; the same code appears in
src/rough/core.py lines 220-234): (1) strokeWidth 0 forces stroke "none";
(2) a `None`/"none" stroke together with an empty fill is replaced by "#000";
(3) an empty fill together with a `None`/""/"none" stroke is replaced by the
fallback fill color "#0f0".  After defaulting the stroke is a string, so the
`is None` disjuncts of (2) and (3) are dropped. -/
def applyInvariants (r : ResolvedSF) : ResolvedSF :=
  let r1 := if r.strokeWidth = 0 then { r with stroke := "none" } else r
  let r2 := if r1.stroke = "none" && fillEmpty r1.fill then { r1 with stroke := "#000" } else r1
  if fillEmpty r2.fill && (r2.stroke = "" || r2.stroke = "none") then
    { r2 with fill := some "#0f0" } else r2

/-- The stroke/fill/strokeWidth part of a fresh `ResolvedOptions()`
(src/rough/core.py lines 112-234) built with no caller input: stroke `None`
defaults to "none", strokeWidth to 2.0, fill stays `None`, and the three
invariants then run (invariant 2 turns the stroke into "#000"). -/
def resolvedOptionsSF : ResolvedSF :=
  applyInvariants { stroke := "none", fill := none, strokeWidth := 2 }

/-- The merge `RoughGenerator._o` (src/rough/generator.py lines 80-108) for a
generator built without global configuration: start from a fresh
`ResolvedOptions()`, copy every non-`None` field of `self.defaultOptions`
(itself a fresh `ResolvedOptions()`, whose `fill` is `None` and is therefore
not copied), then copy every non-`None` field of the local `Options`, and
re-apply the three visibility invariants. -/
def mergeO (lo : OptionsSF) : ResolvedSF :=
  let defaults := resolvedOptionsSF
  let ro : ResolvedSF := resolvedOptionsSF
  let ro := { ro with stroke := defaults.stroke, strokeWidth := defaults.strokeWidth }
  let ro := match lo.stroke with | some s => { ro with stroke := s } | none => ro
  let ro := match lo.fill with | some f => { ro with fill := some f } | none => ro
  let ro := match lo.strokeWidth with | some w => { ro with strokeWidth := w } | none => ro
  applyInvariants ro

/-! ### SVG path tokenization and command grouping
(src/rough/renderer.py `parsePathCommands`, lines 467-494) -/

/-- The command letters matched by the tokenizer regex
`([aAcChHlLmMqQsStTvVzZ])` (src/rough/renderer.py lines 473 and 480). -/
def isCmdChar (c : Char) : Bool :=
  ['a', 'A', 'c', 'C', 'h', 'H', 'l', 'L', 'm', 'M', 'q', 'Q',
   's', 'S', 't', 'T', 'v', 'V', 'z', 'Z'].contains c

/-- The check `is_cmd` of the source (src/rough/renderer.py lines 479-480):
a token is a command exactly when it is a single command letter. -/
def isCmdTok (t : String) : Bool :=
  match t.toList with
  | [c] => isCmdChar c
  | _ => false

/-- Splits a character list at whitespace runs, dropping empty pieces.  `acc`
holds the (reversed) characters of the piece currently being read. -/
def splitWsAux : List Char → List Char → List (List Char)
  | [], acc => if acc = [] then [] else [acc.reverse]
  | c :: cs, acc =>
    if c.isWhitespace then
      if acc = [] then splitWsAux cs [] else acc.reverse :: splitWsAux cs []
    else splitWsAux cs (c :: acc)

/-- Tokenization step of `parsePathCommands` (src/rough/renderer.py lines
472-475): commas become spaces, every command letter is padded with spaces,
whitespace runs are collapsed and the string is split.  The composite effect
modelled here is: split the comma-replaced, padding-expanded character list at
whitespace runs, dropping empty pieces. -/
def tokenizePath (d : String) : List String :=
  let cs := d.toList.map fun c => if c = ',' then ' ' else c
  let ps := (cs.map fun c => if isCmdChar c then [' ', c, ' '] else [c]).flatten
  (splitWsAux ps []).map fun l => String.mk l

/-! ### The renderer data model and random-offset helpers
(src/rough/core.py `Op`/`OpSet`, src/rough/renderer.py lines 21-33, 897-1164)

Python floats are idealized as real numbers.  Randomness is made explicit:
`us : ℕ → ℝ` is the value stream of the seeded `Random(o.seed)` attached to
the resolved options (in the program, `us k = specState o.seed (k+1) /
2147483647`), `ug : ℕ → ℝ` is the value stream of Python's process-global
`random.random()`; consumption indices are threaded through every function,
mirroring the call order of the source. -/

/-- A drawing operation (src/rough/core.py lines 237-244): a tag — "move",
"lineTo" or "bcurveTo" — plus its numeric data. -/
structure Op where
  op : String
  data : List ℝ

/-- An operation set (src/rough/core.py lines 247-259): role tag plus the
ordered operations; the optional metadata fields are not claim-relevant. -/
structure OpSet where
  type : String
  ops : List Op

/-- The fields of a `ResolvedOptions` read by the renderer and the fill code.
After resolution every field is set (src/rough/core.py lines 154-218), so the
source's `x if x is not None else d` accesses are plain field reads here. -/
structure ROpts where
  maxRandomnessOffset : ℝ
  roughness : ℝ
  bowing : ℝ
  preserveVertices : Bool
  disableMultiStroke : Bool
  disableMultiStrokeFill : Bool
  curveTightness : ℝ
  curveFitting : ℝ
  curveStepCount : ℕ
  hachureAngle : ℝ
  hachureGap : ℝ
  strokeWidth : ℝ
  fillWeight : ℝ

/-- `randomFloat` (src/rough/renderer.py lines 1137-1145): read the next value
of the seeded stream; the consumption index is threaded explicitly. -/
def randomFloat (us : ℕ → ℝ) (i : ℕ) : ℝ × ℕ := (us i, i + 1)

/-- `offsetRange` (src/rough/renderer.py lines 1148-1156). -/
def offsetRange (minv maxv : ℝ) (o : ROpts) (gain : ℝ) (us : ℕ → ℝ) (i : ℕ) : ℝ × ℕ :=
  let r := randomFloat us i
  (o.roughness * gain * (r.1 * (maxv - minv) + minv), r.2)

/-- `offsetOpt` (src/rough/renderer.py lines 1159-1164). -/
def offsetOpt (x : ℝ) (o : ROpts) (gain : ℝ) (us : ℕ → ℝ) (i : ℕ) : ℝ × ℕ :=
  offsetRange (-x) x o gain us i

/-! ### Rough lines (src/rough/renderer.py `lineOps` / `doubleLine`) -/

/-- The length gain of `lineOps` (src/rough/renderer.py lines 913-917). -/
noncomputable def lineRoughnessGain (length : ℝ) : ℝ :=
  if 500 < length then 0.4
  else if 200 ≤ length then -0.0016668 * length + 1.233334
  else 1

/-- The effective `maxRandomnessOffset` of `lineOps` (src/rough/renderer.py
lines 918-921): shortened to `length / 10` for very short segments. -/
noncomputable def lineMoff (o : ROpts) (length lengthSq : ℝ) : ℝ :=
  if lengthSq < o.maxRandomnessOffset * o.maxRandomnessOffset * 100 then length / 10
  else o.maxRandomnessOffset

/-- `lineOps` (src/rough/renderer.py lines 897-994): a single pass (an optional
move plus one bcurveTo) approximating the line from `(x1, y1)` to `(x2, y2)`.
The overlay pass draws its jitters from `offsetOpt (moff / 2)` instead of
`offsetOpt moff`; when `preserveVertices` is set the endpoint jitters are not
drawn at all (conditional consumption, as in the Python conditional
expressions). -/
noncomputable def lineOps (x1 y1 x2 y2 : ℝ) (o : ROpts) (mv overlay : Bool) (us : ℕ → ℝ) (i : ℕ) :
    List Op × ℕ :=
  let lengthSq := (x1 - x2) ^ 2 + (y1 - y2) ^ 2
  let length := Real.sqrt lengthSq
  let gain := lineRoughnessGain length
  let moff := lineMoff o length lengthSq
  let amt := if overlay then moff / 2 else moff
  let dp := randomFloat us i
  let divergePoint := 0.2 + dp.1 * 0.2
  let mdx := offsetOpt (o.bowing * moff * (y2 - y1) / 200) o gain us dp.2
  let mdy := offsetOpt (o.bowing * moff * (x1 - x2) / 200) o gain us mdx.2
  let midDispX := mdx.1
  let midDispY := mdy.1
  let step1 : List Op × ℕ :=
    if mv then
      if o.preserveVertices then ([Op.mk "move" [x1, y1]], mdy.2)
      else
        let a := offsetOpt amt o gain us mdy.2
        let b := offsetOpt amt o gain us a.2
        ([Op.mk "move" [x1 + a.1, y1 + b.1]], b.2)
    else ([], mdy.2)
  let c1x := midDispX + x1 + (x2 - x1) * divergePoint
  let c1y := midDispY + y1 + (y2 - y1) * divergePoint
  let c2x := midDispX + x1 + 2 * (x2 - x1) * divergePoint
  let c2y := midDispY + y1 + 2 * (y2 - y1) * divergePoint
  let r1 := offsetOpt amt o gain us step1.2
  let r2 := offsetOpt amt o gain us r1.2
  let r3 := offsetOpt amt o gain us r2.2
  let r4 := offsetOpt amt o gain us r3.2
  let re : (ℝ × ℝ) × ℕ :=
    if o.preserveVertices then ((0, 0), r4.2)
    else
      let e1 := offsetOpt amt o gain us r4.2
      let e2 := offsetOpt amt o gain us e1.2
      ((e1.1, e2.1), e2.2)
  (step1.1 ++ [Op.mk "bcurveTo"
      [c1x + r1.1, c1y + r2.1, c2x + r3.1, c2y + r4.1, x2 + re.1.1, y2 + re.1.2]],
   re.2)

/-- `doubleLine` (src/rough/renderer.py lines 876-894): one pass, plus an
overlay pass unless multi-stroke is disabled (`disableMultiStrokeFill` decides
in fill context). -/
noncomputable def doubleLine (x1 y1 x2 y2 : ℝ) (o : ROpts) (filling : Bool) (us : ℕ → ℝ) (i : ℕ) :
    List Op × ℕ :=
  let singleStroke := if filling then o.disableMultiStrokeFill else o.disableMultiStroke
  let first := lineOps x1 y1 x2 y2 o true false us i
  if singleStroke then first
  else
    let second := lineOps x1 y1 x2 y2 o true true us first.2
    (first.1 ++ second.1, second.2)

/-- Numeric value of a digit list (most significant first). -/
def digitsVal (l : List Char) : ℕ :=
  l.foldl (fun a c => a * 10 + (c.toNat - 48)) 0

/-- Python's `float(t)` on the plain decimal grammar: optional sign, integer
digits, optional fraction, optional exponent; `none` models the `ValueError`
raised on any other token (src/rough/renderer.py lines 488-492 parse each
non-command token this way and catch the `ValueError`).  Inputs such as
`"inf"`, `"nan"` or underscore separators, which CPython's `float` also
accepts, do not occur in the claims and are modelled as errors. -/
def pyFloat (t : String) : Option ℚ :=
  let cs := t.toList
  let sgn : ℚ × List Char :=
    match cs with
    | '-' :: r => (-1, r)
    | '+' :: r => (1, r)
    | r => (1, r)
  let ip := sgn.2.takeWhile Char.isDigit
  let rest1 := sgn.2.dropWhile Char.isDigit
  let fp : List Char × List Char :=
    match rest1 with
    | '.' :: r => (r.takeWhile Char.isDigit, r.dropWhile Char.isDigit)
    | r => ([], r)
  if ip = [] ∧ fp.1 = [] then none
  else
    let mant : ℚ := sgn.1 * ((digitsVal ip : ℚ) + (digitsVal fp.1 : ℚ) / 10 ^ fp.1.length)
    match fp.2 with
    | [] => some mant
    | e :: r =>
      if e = 'e' ∨ e = 'E' then
        let esgn : ℤ × List Char :=
          match r with
          | '-' :: r2 => (-1, r2)
          | '+' :: r2 => (1, r2)
          | r2 => (1, r2)
        let ed := esgn.2.takeWhile Char.isDigit
        let rest2 := esgn.2.dropWhile Char.isDigit
        if ed = [] ∨ rest2 ≠ [] then none
        else some (mant * (10 : ℚ) ^ (esgn.1 * (digitsVal ed : ℤ)))
      else none

/-- The grouping loop of `parsePathCommands` (src/rough/renderer.py lines
476-494), with `segs` kept in reverse order: a command token opens a new
group; any other token is parsed as a float and appended to the last group via
`segs[-1].append(val)` — when no group exists yet that indexing raises an
uncaught `IndexError`, modelled as `none`; a token that fails float parsing
raises `ValueError`, which the source catches and skips. -/
def parsePathAux : List String → List (String × List ℚ) → Option (List (String × List ℚ))
  | [], segs => some segs.reverse
  | t :: ts, segs =>
    if isCmdTok t then parsePathAux ts ((t, []) :: segs)
    else
      match pyFloat t with
      | some v =>
        match segs with
        | [] => none
        | (c, args) :: rest => parsePathAux ts ((c, args ++ [v]) :: rest)
      | none => parsePathAux ts segs

/-- `parsePathCommands` (src/rough/renderer.py lines 467-494): tokenize, then
group command letters with their numeric arguments.  A `none` result records
an uncaught Python exception. -/
def parsePathCommands (d : String) : Option (List (String × List ℚ)) :=
  parsePathAux (tokenizePath d) []

/-! ### Arc angle normalization (src/rough/renderer.py `arc`, lines 263-320)

Real angles idealize the source's floats; `π` is `Real.pi`. -/

open Real

/-- The normalization loop of `arc` (src/rough/renderer.py lines 286-288):
`while strt < 0: strt += math.pi * 2; stp += math.pi * 2`. -/
noncomputable def arcNormLoop (strt stp : ℝ) : ℝ × ℝ :=
  if strt < 0 then arcNormLoop (strt + 2 * π) (stp + 2 * π) else (strt, stp)
termination_by (⌈-strt / (2 * π)⌉).toNat
decreasing_by
  have hπ : (0 : ℝ) < 2 * π := by positivity
  have hx : 0 < -strt / (2 * π) := by
    apply div_pos (by linarith) hπ
  have hstep : -(strt + 2 * π) / (2 * π) = -strt / (2 * π) - 1 := by
    field_simp
    ring
  have hceil : ⌈-(strt + 2 * π) / (2 * π)⌉ = ⌈-strt / (2 * π)⌉ - 1 := by
    rw [hstep, Int.ceil_sub_one]
  have hpos : 1 ≤ ⌈-strt / (2 * π)⌉ := Int.ceil_pos.mpr hx
  simp only [hceil]
  omega

/-- The angle clamp of `arc` (src/rough/renderer.py lines 289-291): after the
normalization loop, a sweep exceeding a full turn is replaced by exactly
`[0, 2π]`. -/
noncomputable def arcNormalize (start stop : ℝ) : ℝ × ℝ :=
  let p := arcNormLoop start stop
  if 2 * π < p.2 - p.1 then (0, 2 * π) else p

/-- The normalized angular span (`stp - strt` after normalization) that the
rest of `arc` consumes (src/rough/renderer.py lines 293-301). -/
noncomputable def arcSpan (start stop : ℝ) : ℝ :=
  (arcNormalize start stop).2 - (arcNormalize start stop).1

/-! ### Claim C3: the perturbation bound for rough lines -/

/-- The ideal (unperturbed) coordinates of a `lineOps` pass: the same
computation as `lineOps` with every trailing `offsetOpt` jitter replaced by
zero.  The diverge point and the bow displacement are retained in the ideal
control points: the specification documents the bow displacement as a
separate, deliberate ingredient of the curve's shape ("bow displacement is
perpendicular to the segment, scaled by bowing"), distinct from the
`maxRandomnessOffset` perturbation that the bound is about. -/
noncomputable def lineOpsIdeal (x1 y1 x2 y2 : ℝ) (o : ROpts) (mv : Bool) (us : ℕ → ℝ)
    (i : ℕ) : List Op :=
  let lengthSq := (x1 - x2) ^ 2 + (y1 - y2) ^ 2
  let length := Real.sqrt lengthSq
  let gain := lineRoughnessGain length
  let moff := lineMoff o length lengthSq
  let dp := randomFloat us i
  let divergePoint := 0.2 + dp.1 * 0.2
  let mdx := offsetOpt (o.bowing * moff * (y2 - y1) / 200) o gain us dp.2
  let mdy := offsetOpt (o.bowing * moff * (x1 - x2) / 200) o gain us mdx.2
  let c1x := mdx.1 + x1 + (x2 - x1) * divergePoint
  let c1y := mdy.1 + y1 + (y2 - y1) * divergePoint
  let c2x := mdx.1 + x1 + 2 * (x2 - x1) * divergePoint
  let c2y := mdy.1 + y1 + 2 * (y2 - y1) * divergePoint
  (if mv then [Op.mk "move" [x1, y1]] else []) ++
    [Op.mk "bcurveTo" [c1x, c1y, c2x, c2y, x2, y2]]

/-- Modelled from the spec (sections 4.2 and 8): the documented length gain —
1.0 below length 200, a linear ramp from 1.0 down to 0.4 between 200 and 500,
and 0.4 at or above 500. -/
noncomputable def gainClaim (len : ℝ) : ℝ :=
  if len < 200 then 1 else if 500 ≤ len then 0.4 else 1 - 0.6 * (len - 200) / 300

/-- Coordinate-wise closeness of two operations up to `B`. -/
def opWithin (B : ℝ) (p q : Op) : Prop :=
  p.op = q.op ∧ List.Forall₂ (fun a b => |a - b| ≤ B) p.data q.data

/-! ### Cubic passes and multi-point curves
(src/rough/renderer.py `cubicBezierOps`, `curveOps`, `curveWithOffset`, `curve`) -/

/-- The library default options (src/rough/core.py lines 154-218): offset 2,
roughness 1, bowing 2, tightness 0.1, fitting 0.95, 9 curve steps, hachure
angle -41 and gap 3.5, stroke width 2, fill weight 1, all flags off. -/
noncomputable def defaultROpts : ROpts :=
  { maxRandomnessOffset := 2, roughness := 1, bowing := 2,
    preserveVertices := false, disableMultiStroke := false,
    disableMultiStrokeFill := false, curveTightness := 0.1, curveFitting := 0.95,
    curveStepCount := 9, hachureAngle := -41, hachureGap := 3.5,
    strokeWidth := 2, fillWeight := 1 }

/-- Jitters for the six numbers of one cubic pass (src/rough/renderer.py lines
803-808): under `preserveVertices` nothing is drawn (the Python conditional
expressions skip the `offsetOpt` calls). -/
noncomputable def jitter6 (ro : ℝ) (o : ROpts) (us : ℕ → ℝ) (i : ℕ) :
    (ℝ × ℝ × ℝ × ℝ × ℝ × ℝ) × ℕ :=
  if o.preserveVertices then ((0, 0, 0, 0, 0, 0), i)
  else
    let a := offsetOpt ro o 1 us i
    let b := offsetOpt ro o 1 us a.2
    let c := offsetOpt ro o 1 us b.2
    let d := offsetOpt ro o 1 us c.2
    let e := offsetOpt ro o 1 us d.2
    let f := offsetOpt ro o 1 us e.2
    ((a.1, b.1, c.1, d.1, e.1, f.1), f.2)

/-- One pass of `cubicBezierOps` (src/rough/renderer.py lines 787-809): pass 0
opens with a plain move; later passes jitter the move point by
`offsetOpt base` unless `preserveVertices`; the pass jitter amount is
`base + 0.3` from pass 1 on. -/
noncomputable def cubicPass (cx1 cy1 cx2 cy2 ex ey sx sy : ℝ) (o : ROpts) (k : ℕ)
    (base : ℝ) (us : ℕ → ℝ) (i : ℕ) : List Op × ℕ :=
  let ro := base + (if 0 < k then (0.3 : ℝ) else 0)
  let mvp : List Op × ℕ :=
    if k = 0 then ([Op.mk "move" [sx, sy]], i)
    else if o.preserveVertices then ([Op.mk "move" [sx, sy]], i)
    else
      let a := offsetOpt base o 1 us i
      let b := offsetOpt base o 1 us a.2
      ([Op.mk "move" [sx + a.1, sy + b.1]], b.2)
  let j := jitter6 ro o us mvp.2
  (mvp.1 ++ [Op.mk "bcurveTo"
      [cx1 + j.1.1, cy1 + j.1.2.1, cx2 + j.1.2.2.1, cy2 + j.1.2.2.2.1,
       ex + j.1.2.2.2.2.1, ey + j.1.2.2.2.2.2]], j.2)

/-- `cubicBezierOps` (src/rough/renderer.py lines 768-810): one pass when
multi-stroke is disabled, two otherwise; `base` is `o.maxRandomnessOffset`. -/
noncomputable def cubicBezierOps (cx1 cy1 cx2 cy2 ex ey : ℝ) (current : ℝ × ℝ)
    (o : ROpts) (us : ℕ → ℝ) (i : ℕ) : List Op × ℕ :=
  let base := o.maxRandomnessOffset
  let p0 := cubicPass cx1 cy1 cx2 cy2 ex ey current.1 current.2 o 0 base us i
  if o.disableMultiStroke then p0
  else
    let p1 := cubicPass cx1 cy1 cx2 cy2 ex ey current.1 current.2 o 1 base us p0.2
    (p0.1 ++ p1.1, p1.2)

/-- One Catmull-Rom cubic per window of four consecutive points — the loop of
`curveOps` for more than three points (src/rough/renderer.py lines 1011-1028),
with `s = 1 - curveTightness`. -/
noncomputable def catmullWindows (s : ℝ) : List (ℝ × ℝ) → List Op
  | p0 :: p1 :: p2 :: p3 :: rest =>
      Op.mk "bcurveTo"
        [p1.1 + s * (p2.1 - p0.1) / 6, p1.2 + s * (p2.2 - p0.2) / 6,
         p2.1 + s * (p1.1 - p3.1) / 6, p2.2 + s * (p1.2 - p3.2) / 6,
         p2.1, p2.2] :: catmullWindows s (p1 :: p2 :: p3 :: rest)
  | _ => []
termination_by l => l.length

/-- `curveOps` (src/rough/renderer.py lines 997-1070).  With more than three
points: a move to `points[1]` and the Catmull-Rom chain (plus a jittered
line to `closePoint` when closing); with three points a fixed 3-point bridge;
with two points a single overlay `lineOps` pass; otherwise nothing.  The
`getD` defaults are never reached under the length guards. -/
noncomputable def curveOps (points : List (ℝ × ℝ)) (closePoint : Option (ℝ × ℝ))
    (o : ROpts) (us : ℕ → ℝ) (i : ℕ) : List Op × ℕ :=
  let s := 1 - o.curveTightness
  if 3 < points.length then
    let p1 := points.getD 1 (0, 0)
    let start := Op.mk "move" [p1.1, p1.2]
    let body := catmullWindows s points
    match closePoint with
    | some cp =>
        let a := offsetOpt o.maxRandomnessOffset o 1 us i
        let b := offsetOpt o.maxRandomnessOffset o 1 us a.2
        (start :: body ++ [Op.mk "lineTo" [cp.1 + a.1, cp.2 + b.1]], b.2)
    | none => (start :: body, i)
  else if points.length = 3 then
    let p1 := points.getD 1 (0, 0)
    let p2 := points.getD 2 (0, 0)
    ([Op.mk "move" [p1.1, p1.2],
      Op.mk "bcurveTo" [p1.1, p1.2, p2.1, p2.2, p2.1, p2.2]], i)
  else if points.length = 2 then
    let p0 := points.getD 0 (0, 0)
    let p1 := points.getD 1 (0, 0)
    lineOps p0.1 p0.2 p1.1 p1.2 o true true us i
  else ([], i)

/-- The point-jitter loop of `curveWithOffset` over `points[1:]`
(src/rough/renderer.py lines 1091-1096): each point is jittered once and the
final jittered point is appended twice (no extra draws for the duplicate). -/
noncomputable def cwoPoints (offset : ℝ) (o : ROpts) (us : ℕ → ℝ) :
    List (ℝ × ℝ) → ℕ → List (ℝ × ℝ) × ℕ
  | [], i => ([], i)
  | [p], i =>
      let a := offsetOpt offset o 1 us i
      let b := offsetOpt offset o 1 us a.2
      ([(p.1 + a.1, p.2 + b.1), (p.1 + a.1, p.2 + b.1)], b.2)
  | p :: q :: rest, i =>
      let a := offsetOpt offset o 1 us i
      let b := offsetOpt offset o 1 us a.2
      let t := cwoPoints offset o us (q :: rest) b.2
      ((p.1 + a.1, p.2 + b.1) :: t.1, t.2)

/-- `curveWithOffset` (src/rough/renderer.py lines 1073-1097): two
independently jittered copies of the first point, the jitter loop over the
remaining points, then `curveOps` with no close point.  `preserveVertices` is
never consulted here. -/
noncomputable def curveWithOffset (points : List (ℝ × ℝ)) (offset : ℝ) (o : ROpts)
    (us : ℕ → ℝ) (i : ℕ) : List Op × ℕ :=
  match points with
  | [] => ([], i)
  | p0 :: rest =>
    let a1 := offsetOpt offset o 1 us i
    let b1 := offsetOpt offset o 1 us a1.2
    let a2 := offsetOpt offset o 1 us b1.2
    let b2 := offsetOpt offset o 1 us a2.2
    let t := cwoPoints offset o us rest b2.2
    curveOps ((p0.1 + a1.1, p0.2 + b1.1) :: (p0.1 + a2.1, p0.2 + b2.1) :: t.1)
      none o us t.2

/-- The single point-list branch of `curve` (src/rough/renderer.py lines
333-355): the underlay pass uses amount `1·(1 + 0.2·roughness)`; unless
multi-stroke is disabled, an overlay with amount `1.5·(1 + 0.22·roughness)` is
drawn from a clone whose seed is incremented by one (`cloneOptionsSeed`,
lines 1167-1181), modelled as the independent stream `us2` starting at 0. -/
noncomputable def curveSingle (points : List (ℝ × ℝ)) (o : ROpts) (us us2 : ℕ → ℝ)
    (i : ℕ) : List Op :=
  let amt1 := 1 * (1 + o.roughness * 0.2)
  let under := curveWithOffset points amt1 o us i
  if o.disableMultiStroke then under.1
  else
    let amt2 := 1.5 * (1 + o.roughness * 0.22)
    let over := curveWithOffset points amt2 o us2 0
    under.1 ++ over.1

/-! ### Scan-line hachure (src/rough/fillers/scan_line_hachure.py) -/

/-- `_rotatePoint` (src/rough/fillers/scan_line_hachure.py lines 109-114),
parameterized by the cosine `c` and sine `s` of the rotation angle. -/
def rotatePoint (c s : ℝ) (p : ℝ × ℝ) : ℝ × ℝ :=
  (p.1 * c - p.2 * s, p.1 * s + p.2 * c)

/-- `_edge_intersects_scanline` (src/rough/fillers/scan_line_hachure.py lines
88-96): horizontal edges on the scan line are ignored, and an edge crosses
only when the scan line is strictly between its endpoint heights. -/
noncomputable def edgeIntersectsScanline (p1 p2 : ℝ × ℝ) (scanY : ℝ) : Bool :=
  if |p1.2 - p2.2| < 1e-14 ∧ |p1.2 - scanY| < 1e-14 then false
  else
    let mn := min p1.2 p2.2
    let mx := max p1.2 p2.2
    if scanY ≤ mn ∨ mx ≤ scanY then false else true

/-- `_xIntersect` (src/rough/fillers/scan_line_hachure.py lines 99-106). -/
noncomputable def xIntersect (p1 p2 : ℝ × ℝ) (y : ℝ) : Option ℝ :=
  let dy := p2.2 - p1.2
  if |dy| < 1e-14 then none
  else some (p1.1 + (y - p1.2) / dy * (p2.1 - p1.1))

/-- The edge list `(rpoly[i], rpoly[(i+1) % len])` for `i < len`
(src/rough/fillers/scan_line_hachure.py lines 75-77). -/
def polyEdges (rpoly : List (ℝ × ℝ)) : List ((ℝ × ℝ) × (ℝ × ℝ)) :=
  match rpoly with
  | [] => []
  | p :: rest => List.zip (p :: rest) (rest ++ [p])

/-- `_horizontalIntersectionsNonZero` (src/rough/fillers/scan_line_hachure.py
lines 67-85): each crossing edge contributes its intersection abscissa and a
winding sign (+1 upward, -1 downward); the list is sorted by abscissa.
Python's stable Timsort is modelled by an insertion sort; the inputs of the
claims have pairwise distinct abscissas, where every sort agrees. -/
noncomputable def horizontalIntersectionsNonZero (rpoly : List (ℝ × ℝ)) (scanY : ℝ) :
    List (ℝ × ℝ) :=
  if rpoly.length < 2 then []
  else
    let crossings := (polyEdges rpoly).filterMap fun e =>
      if edgeIntersectsScanline e.1 e.2 scanY then
        match xIntersect e.1 e.2 scanY with
        | some x => some (x, if e.1.2 < e.2.2 then (1 : ℝ) else -1)
        | none => none
      else none
    crossings.insertionSort fun a b => a.1 ≤ b.1

/-- One step of the winding accumulation (src/rough/fillers/
scan_line_hachure.py lines 46-55): state is (running winding, previous
abscissa, segments so far); a span is emitted when the winding before the
crossing is nonzero and the abscissa strictly advances. -/
noncomputable def windingStep (st : ℝ × Option ℝ × List (ℝ × ℝ)) (c : ℝ × ℝ) :
    ℝ × Option ℝ × List (ℝ × ℝ) :=
  let segs :=
    match st.2.1 with
    | some px => if st.1 ≠ 0 ∧ px < c.1 then st.2.2 ++ [(px, c.1)] else st.2.2
    | none => st.2.2
  (st.1 + c.2, some c.1, segs)

/-- The spans with nonzero winding on one scan line. -/
noncomputable def scanlineSegments (rpoly : List (ℝ × ℝ)) (y : ℝ) : List (ℝ × ℝ) :=
  ((horizontalIntersectionsNonZero rpoly y).foldl windingStep (0, none, [])).2.2

/-- The fill lines emitted for one scan line, rotated back by the angle whose
cosine and sine are `cA` and `sA` (src/rough/fillers/scan_line_hachure.py
lines 57-60). -/
noncomputable def scanlineLines (cA sA : ℝ) (rpoly : List (ℝ × ℝ)) (y : ℝ) :
    List ((ℝ × ℝ) × (ℝ × ℝ)) :=
  (scanlineSegments rpoly y).map fun seg =>
    (rotatePoint cA sA (seg.1, y), rotatePoint cA sA (seg.2, y))

/-- The scan loop `while y <= maxY: ... y += gap` (src/rough/fillers/
scan_line_hachure.py lines 38-62), embedded with an explicit iteration
budget: `none` records budget exhaustion (the claim C10 theorem shows the
default budget of `scanFuel` is never exhausted); each list entry is one
iteration — the scan height and the lines it emitted. -/
noncomputable def scanIter (cA sA : ℝ) (rpoly : List (ℝ × ℝ)) (gap maxY : ℝ) :
    ℕ → ℝ → Option (List (ℝ × List ((ℝ × ℝ) × (ℝ × ℝ))))
  | 0, _ => none
  | fuel + 1, y =>
      if maxY < y then some []
      else
        match scanIter cA sA rpoly gap maxY fuel (y + gap) with
        | some rest => some ((y, scanlineLines cA sA rpoly y) :: rest)
        | none => none

/-- The effective hachure gap (src/rough/fillers/scan_line_hachure.py lines
20-25): `hachureGap` when nonnegative, else `4 · strokeWidth`, clamped to at
least 0.1. -/
noncomputable def effectiveGap (o : ROpts) : ℝ :=
  max (if 0 ≤ o.hachureGap then o.hachureGap else o.strokeWidth * 4) 0.1

/-- Iteration budget for the scan loop, sufficient whenever `0 < gap`
(claim C10): one slot per scan height plus the final exit test. -/
noncomputable def scanFuel (gap y maxY : ℝ) : ℕ := (⌈(maxY - y) / gap⌉ + 1).toNat + 1

/-- Minimum of the y coordinates of a point list (`min(p[1] for p in rpoly)`,
src/rough/fillers/scan_line_hachure.py line 36); 0 for the empty list, which
the `len < 3` guard rules out. -/
def minY2 (l : List (ℝ × ℝ)) : ℝ :=
  match l with
  | [] => 0
  | p :: r => (r.map Prod.snd).foldl min p.2

/-- Maximum of the y coordinates of a point list. -/
def maxY2 (l : List (ℝ × ℝ)) : ℝ :=
  match l with
  | [] => 0
  | p :: r => (r.map Prod.snd).foldl max p.2

/-- `polygon_hachure_lines` (src/rough/fillers/scan_line_hachure.py lines
10-64), parameterized by `cA = cos angle_rad` and `sA = sin angle_rad` where
`angle_rad = radians(-(hachureAngle + 90))`: polygons with fewer than three
vertices are skipped; the others are rotated by `-angle_rad` (cosine `cA`,
sine `-sA`), scanned from their rotated minimum height to their maximum
height in steps of the effective gap, and the emitted spans are rotated
back. -/
noncomputable def polygonHachureLines (o : ROpts) (cA sA : ℝ)
    (polys : List (List (ℝ × ℝ))) : List ((ℝ × ℝ) × (ℝ × ℝ)) :=
  let gap := effectiveGap o
  (polys.map fun poly =>
    if poly.length < 3 then []
    else
      let rpoly := poly.map (rotatePoint cA (-sA))
      let mnY := minY2 rpoly
      let mxY := maxY2 rpoly
      (((scanIter cA sA rpoly gap mxY (scanFuel gap mnY mxY) mnY).getD []).map
        Prod.snd).flatten).flatten

/-- The angle actually used: `angle_rad = math.radians(-(hachureAngle + 90))`
(src/rough/fillers/scan_line_hachure.py lines 17-27). -/
noncomputable def hachureAngleRad (angle : ℝ) : ℝ := -(angle + 90) * π / 180

/-- `polygon_hachure_lines` with the rotation computed from the options. -/
noncomputable def polygonHachureLinesR (o : ROpts) (polys : List (List (ℝ × ℝ))) :
    List ((ℝ × ℝ) × (ℝ × ℝ)) :=
  polygonHachureLines o (Real.cos (hachureAngleRad o.hachureAngle))
    (Real.sin (hachureAngleRad o.hachureAngle)) polys

/-- Options for the C9 counterexample: hachure angle -90 (so the rotation
angle is 0 and scanning runs along the original y axis) and gap 4/5. -/
noncomputable def oG45 : ROpts := { defaultROpts with hachureAngle := -90, hachureGap := 4/5 }

/-- The same options with the smaller gap 3/4. -/
noncomputable def oG34 : ROpts := { defaultROpts with hachureAngle := -90, hachureGap := 3/4 }

/-! ### Rough ellipses (src/rough/renderer.py `generateEllipseParams`,
`computeEllipsePoints`, `ellipseWithParams`, `ellipse`) -/

/-- `generateEllipseParams` (src/rough/renderer.py lines 127-144): returns
`(rx, ry, increment)` and the advanced stream index.  `int(...)` truncation
of the nonnegative step estimate is `Nat.floor`. -/
noncomputable def generateEllipseParams (width height : ℝ) (o : ROpts) (us : ℕ → ℝ)
    (si : ℕ) : (ℝ × ℝ × ℝ) × ℕ :=
  let cstep : ℝ := o.curveStepCount
  let psq := Real.sqrt (π * 2 * Real.sqrt (((width / 2) ^ 2 + (height / 2) ^ 2) / 2))
  let stepCount := max o.curveStepCount ⌊(cstep / Real.sqrt 200) * psq⌋₊
  let inc := (π * 2) / stepCount
  let rx0 := |width / 2|
  let ry0 := |height / 2|
  let curveFit := 1 - o.curveFitting
  let a := offsetOpt (rx0 * curveFit) o 1 us si
  let b := offsetOpt (ry0 * curveFit) o 1 us a.2
  ((rx0 + a.1, ry0 + b.1, inc), b.2)

/-- Iteration budget for the ellipse point loops, sufficient whenever the
increment is positive. -/
noncomputable def ellipseLoopFuel (increment angle endAngle : ℝ) : ℕ :=
  (⌈(endAngle - angle) / increment⌉).toNat + 1

/-- The jittered point loop of `computeEllipsePoints` for nonzero roughness
(src/rough/renderer.py lines 227-233): one point per angle while
`angle < endAngle`, each coordinate shifted by `offsetOpt offset`. -/
noncomputable def ellipsePointsLoop (increment cx cy rx ry offset endAngle : ℝ)
    (o : ROpts) (us : ℕ → ℝ) : ℕ → ℝ → ℕ → List (ℝ × ℝ) × ℕ
  | 0, _, si => ([], si)
  | fuel + 1, angle, si =>
      if angle < endAngle then
        let a := offsetOpt offset o 1 us si
        let b := offsetOpt offset o 1 us a.2
        let rest := ellipsePointsLoop increment cx cy rx ry offset endAngle o us fuel
          (angle + increment) b.2
        ((a.1 + cx + rx * Real.cos angle, b.1 + cy + ry * Real.sin angle) :: rest.1,
         rest.2)
      else ([], si)

/-- The jitter-free point loop of the `roughness == 0` branch of
`computeEllipsePoints` (src/rough/renderer.py lines 208-214): one point per
angle while `angle <= 2π`, step `increment / 4`. -/
noncomputable def ellipseCoreLoop (inc4 cx cy rx ry maxA : ℝ) : ℕ → ℝ → List (ℝ × ℝ)
  | 0, _ => []
  | fuel + 1, angle =>
      if angle ≤ maxA then
        (cx + rx * Real.cos angle, cy + ry * Real.sin angle) ::
          ellipseCoreLoop inc4 cx cy rx ry maxA fuel (angle + inc4)
      else []

/-- `computeEllipsePoints` (src/rough/renderer.py lines 186-260): returns
`(allPoints, corePoints)` and the advanced stream index. -/
noncomputable def computeEllipsePoints (increment cx cy rx ry offset overlap : ℝ)
    (o : ROpts) (us : ℕ → ℝ) (si : ℕ) : (List (ℝ × ℝ) × List (ℝ × ℝ)) × ℕ :=
  if o.roughness = 0 then
    let inc4 := increment / 4
    let pre := (cx + rx * Real.cos (-inc4), cy + ry * Real.sin (-inc4))
    let pts := ellipseCoreLoop inc4 cx cy rx ry (π * 2)
      (ellipseLoopFuel inc4 0 (π * 2) + 1) 0
    ((pre :: pts ++ [(cx + rx * Real.cos 0, cy + ry * Real.sin 0),
        (cx + rx * Real.cos inc4, cy + ry * Real.sin inc4)], pts), si)
  else
    let rad := offsetOpt 0.5 o 1 us si
    let radOffset := rad.1 - π / 2
    let px := offsetOpt offset o 1 us rad.2
    let py := offsetOpt offset o 1 us px.2
    let pre := (px.1 + cx + 0.9 * rx * Real.cos (radOffset - increment),
                py.1 + cy + 0.9 * ry * Real.sin (radOffset - increment))
    let endAngle := π * 2 + radOffset - 0.01
    let lp := ellipsePointsLoop increment cx cy rx ry offset endAngle o us
      (ellipseLoopFuel increment radOffset endAngle) radOffset py.2
    let e1x := offsetOpt offset o 1 us lp.2
    let e1y := offsetOpt offset o 1 us e1x.2
    let e2x := offsetOpt offset o 1 us e1y.2
    let e2y := offsetOpt offset o 1 us e2x.2
    let e3x := offsetOpt offset o 1 us e2y.2
    let e3y := offsetOpt offset o 1 us e3x.2
    let e1 := (e1x.1 + cx + rx * Real.cos (radOffset + π * 2 + overlap * 0.5),
               e1y.1 + cy + ry * Real.sin (radOffset + π * 2 + overlap * 0.5))
    let e2 := (e2x.1 + cx + 0.98 * rx * Real.cos (radOffset + overlap),
               e2y.1 + cy + 0.98 * ry * Real.sin (radOffset + overlap))
    let e3 := (e3x.1 + cx + 0.9 * rx * Real.cos (radOffset + overlap * 0.5),
               e3y.1 + cy + 0.9 * ry * Real.sin (radOffset + overlap * 0.5))
    ((pre :: lp.1 ++ [e1, e2, e3], lp.1), e3y.2)

/-- `ellipseWithParams` (src/rough/renderer.py lines 147-172): the overlap
argument consumes two draws (`offsetRange(0.4, 1.0)` then
`offsetRange(0.1, ·)`), then the first pass; a second pass with offset 1.5
and no overlap follows unless multi-stroke is disabled or roughness is 0. -/
noncomputable def ellipseWithParams (x y : ℝ) (o : ROpts) (rx ry increment : ℝ)
    (us : ℕ → ℝ) (si : ℕ) : (OpSet × List (ℝ × ℝ)) × ℕ :=
  let ov1 := offsetRange 0.4 1 o 1 us si
  let ov2 := offsetRange 0.1 ov1.1 o 1 us ov1.2
  let cep := computeEllipsePoints increment x y rx ry 1 (increment * ov2.1) o us ov2.2
  let c1 := curveOps cep.1.1 none o us cep.2
  if o.disableMultiStroke = false ∧ o.roughness ≠ 0 then
    let cep2 := computeEllipsePoints increment x y rx ry 1.5 0 o us c1.2
    let c2 := curveOps cep2.1.1 none o us cep2.2
    ((OpSet.mk "path" (c1.1 ++ c2.1), cep.1.2), c2.2)
  else ((OpSet.mk "path" c1.1, cep.1.2), c1.2)

/-- `ellipse` (src/rough/renderer.py lines 175-183), returning the operation
list of the OpSet (which is what the dot filler consumes via
`helper.ellipse(...).ops`). -/
noncomputable def ellipseR (x y width height : ℝ) (o : ROpts) (us : ℕ → ℝ)
    (si : ℕ) : List Op × ℕ :=
  let ep := generateEllipseParams width height o us si
  let ew := ellipseWithParams x y o ep.1.1 ep.1.2.1 ep.1.2.2 us ep.2
  (ew.1.1.ops, ew.2)

/-- The x offset, relative to the center, of the first jittered perimeter
point of the first pass of `ellipseR width height` drawn from seed-stream
position `si` (the draws preceding it: two in `generateEllipseParams`, two
for the overlap, one for `radOffset`, two for the pre-point). -/
noncomputable def ellipseFirstDX (width height : ℝ) (o : ROpts) (us : ℕ → ℝ)
    (si : ℕ) : ℝ :=
  (offsetOpt 1 o 1 us (si + 7)).1 +
    (generateEllipseParams width height o us si).1.1 *
      Real.cos ((offsetOpt 0.5 o 1 us (si + 4)).1 - π / 2)

/-- The matching y offset of the first jittered perimeter point. -/
noncomputable def ellipseFirstDY (width height : ℝ) (o : ROpts) (us : ℕ → ℝ)
    (si : ℕ) : ℝ :=
  (offsetOpt 1 o 1 us (si + 8)).1 +
    (generateEllipseParams width height o us si).1.2.1 *
      Real.sin ((offsetOpt 0.5 o 1 us (si + 4)).1 - π / 2)

/-! ### The dot filler (src/rough/fillers/dot_filler.py, src/rough/geometry.py) -/

/-- `line_length` (src/rough/geometry.py lines 20-29). -/
noncomputable def lineLength (ln : (ℝ × ℝ) × (ℝ × ℝ)) : ℝ :=
  Real.sqrt ((ln.1.1 - ln.2.1) ^ 2 + (ln.1.2 - ln.2.2) ^ 2)

/-- The per-dot loop of `_dotsOnLines` (src/rough/fillers/dot_filler.py lines
53-59): the center jitters are drawn from the process-global unseeded stream
`ug` (`random.random()` in the source); the ellipse for each dot consumes the
seeded stream `us`. -/
noncomputable def dotsLoop (fw gap ro x mY offset : ℝ) (o : ROpts) (us ug : ℕ → ℝ) :
    ℕ → ℕ → ℕ → ℕ → List Op × ℕ × ℕ
  | 0, _, si, gi => ([], si, gi)
  | k + 1, i, si, gi =>
      let y := mY + offset + i * gap
      let cx := (x - ro) + ug gi * (2 * ro)
      let cy := (y - ro) + ug (gi + 1) * (2 * ro)
      let el := ellipseR cx cy fw fw o us si
      let rest := dotsLoop fw gap ro x mY offset o us ug k (i + 1) el.2 (gi + 2)
      (el.1 ++ rest.1, rest.2)

/-- The body of `_dotsOnLines` for one line (src/rough/fillers/dot_filler.py
lines 26-59): the gap is computed exactly as in `polygon_hachure_lines`
(`effectiveGap`); the dot ellipse diameter is `fillWeight` when nonnegative,
else half the stroke width; the jitter amplitude is `gap / 4`; the dot count
is `max 0 (⌈length / gap⌉ - 1)`. -/
noncomputable def dotsOnLine (ln : (ℝ × ℝ) × (ℝ × ℝ)) (o : ROpts) (us ug : ℕ → ℝ)
    (si gi : ℕ) : List Op × ℕ × ℕ :=
  let gap := effectiveGap o
  let fweight := if 0 ≤ o.fillWeight then o.fillWeight else o.strokeWidth * 0.5
  let ro := gap / 4
  let length := lineLength ln
  let count := (⌈length / gap⌉ - 1).toNat
  let offset := length - count * gap
  let x := (ln.1.1 + ln.2.1) * 0.5 - gap * 0.25
  let mY := min ln.1.2 ln.2.2
  dotsLoop fweight gap ro x mY offset o us ug count 0 si gi

/-- The line loop of `_dotsOnLines` (src/rough/fillers/dot_filler.py lines
42-59). -/
noncomputable def dotsLinesLoop (o : ROpts) (us ug : ℕ → ℝ) :
    List ((ℝ × ℝ) × (ℝ × ℝ)) → ℕ → ℕ → List Op × ℕ × ℕ
  | [], si, gi => ([], si, gi)
  | ln :: rest, si, gi =>
      let d := dotsOnLine ln o us ug si gi
      let r := dotsLinesLoop o us ug rest d.2.1 d.2.2
      (d.1 ++ r.1, r.2)

/-- `DotFiller.fillPolygons` (src/rough/fillers/dot_filler.py lines 15-21):
clone the options with `hachureAngle = 0`, regenerate the hachure lines, then
place the dots. -/
noncomputable def fillPolygonsDots (polys : List (List (ℝ × ℝ))) (o : ROpts)
    (us ug : ℕ → ℝ) (si gi : ℕ) : OpSet × ℕ × ℕ :=
  let lines := polygonHachureLinesR { o with hachureAngle := 0 } polys
  let d := dotsLinesLoop o us ug lines si gi
  (OpSet.mk "fillSketch" d.1, d.2)

/-- The line-rendering loop of `HachureFiller.renderLines`
(src/rough/fillers/hachure_filler.py lines 24-30): each hachure line is drawn
by `helper.doubleLineOps`, i.e. `doubleLine` in fill context
(src/rough/renderer.py lines 36-43 and 65-68). -/
noncomputable def hachureRenderLines (o : ROpts) (us : ℕ → ℝ) :
    List ((ℝ × ℝ) × (ℝ × ℝ)) → ℕ → List Op × ℕ
  | [], si => ([], si)
  | ln :: rest, si =>
      let d := doubleLine ln.1.1 ln.1.2 ln.2.1 ln.2.2 o true us si
      let r := hachureRenderLines o us rest d.2
      (d.1 ++ r.1, r.2)

/-- `HachureFiller.fillPolygons` (src/rough/fillers/hachure_filler.py lines
14-22).  The global stream `ug` and its index `gi` are threaded for
uniformity with the dot filler; this filler never reads them, which is
exactly what claim C1's amended determinism statement expresses. -/
noncomputable def fillPolygonsHachure (polys : List (List (ℝ × ℝ))) (o : ROpts)
    (us ug : ℕ → ℝ) (si gi : ℕ) : OpSet × ℕ × ℕ :=
  let lines := polygonHachureLinesR o polys
  let r := hachureRenderLines o us lines si
  (OpSet.mk "fillSketch" r.1, r.2, gi)

/-- The value stream of the seeded `Random(seed)` source as real numbers:
`us k` is the value of the (k+1)-st call, `specState seed (k+1) / (2³¹-1)`
(claim C2 proves the code's `Random.next` produces exactly this stream for
seeds in `(0, 2³¹-1)`). -/
noncomputable def lcgStreamR (seed : ℕ) : ℕ → ℝ :=
  fun k => (specState seed (k + 1) : ℝ) / 2147483647

/-- Options for the dots counterexamples: library defaults with gap 1/2 and
multi-stroke disabled (the claim quantifies over all options values). -/
noncomputable def oDots : ROpts :=
  { defaultROpts with hachureGap := 1/2, disableMultiStroke := true }

/-! ### Dot placement (claim C5) -/

/-- The options record with the hachure angle replaced — the clone
`temp.hachureAngle = 0` of `DotFiller.fillPolygons`
(src/rough/fillers/dot_filler.py lines 16-19) is `setA o 0`. -/
noncomputable def setA (o : ROpts) (a : ℝ) : ROpts := { o with hachureAngle := a }

/-- One ellipse per dot center, threading the seeded stream index — the loop
body `el = self.helper.ellipse(cx, cy, fweight, fweight, o)`
(src/rough/fillers/dot_filler.py line 58). -/
noncomputable def ellipseJoin (fw : ℝ) (o : ROpts) (us : ℕ → ℝ) :
    List (ℝ × ℝ) → ℕ → List Op × ℕ
  | [], si => ([], si)
  | c :: rest, si =>
      let el := ellipseR c.1 c.2 fw fw o us si
      let r := ellipseJoin fw o us rest el.2
      (el.1 ++ r.1, r.2)

/-- Closed form of the dot centers produced by `dotsLoop`: dot `j` of a run of
`k` dots starting at index `i` with global-stream position `gi`. -/
noncomputable def dotCentersFrom (gap ro x mY offset : ℝ) (ug : ℕ → ℝ)
    (k i gi : ℕ) : List (ℝ × ℝ) :=
  (List.range k).map fun j =>
    ((x - ro) + ug (gi + 2 * j) * (2 * ro),
     (mY + offset + ((i + j : ℕ) : ℝ) * gap - ro) + ug (gi + 2 * j + 1) * (2 * ro))

/-- The dot centers of one hachure line (src/rough/fillers/dot_filler.py lines
42-56). -/
noncomputable def dotCenters (ln : (ℝ × ℝ) × (ℝ × ℝ)) (o : ROpts) (ug : ℕ → ℝ)
    (gi : ℕ) : List (ℝ × ℝ) :=
  dotCentersFrom (effectiveGap o) (effectiveGap o / 4)
    ((ln.1.1 + ln.2.1) * 0.5 - effectiveGap o * 0.25) (min ln.1.2 ln.2.2)
    (lineLength ln - (⌈lineLength ln / effectiveGap o⌉ - 1).toNat * effectiveGap o)
    ug (⌈lineLength ln / effectiveGap o⌉ - 1).toNat 0 gi

/-- The ideal (jitter-free) x coordinate of every dot center of one line:
`x = (ln[0][0] + ln[1][0]) * 0.5 - gap * 0.25`
(src/rough/fillers/dot_filler.py line 51). -/
noncomputable def dotIdealX (ln : (ℝ × ℝ) × (ℝ × ℝ)) (o : ROpts) : ℝ :=
  (ln.1.1 + ln.2.1) * 0.5 - effectiveGap o * 0.25

/-- The ideal (jitter-free) y coordinate of dot `j` of one line:
`y = minY + offset + i * gap` (src/rough/fillers/dot_filler.py line 54). -/
noncomputable def dotIdealY (ln : (ℝ × ℝ) × (ℝ × ℝ)) (o : ROpts) (j : ℕ) : ℝ :=
  min ln.1.2 ln.2.2 +
    (lineLength ln - (⌈lineLength ln / effectiveGap o⌉ - 1).toNat * effectiveGap o) +
    (j : ℝ) * effectiveGap o

/-- Options for the dots-on-line counterexample: library defaults with gap 1
and multi-stroke disabled. -/
noncomputable def oDotsB : ROpts :=
  { defaultROpts with hachureGap := 1, disableMultiStroke := true }

/-! ## Theorems -/

/-- The LCG modulus `2³¹ − 1 = 2147483647` is prime (it is the Mersenne prime
for exponent 31), certified by the Lucas-Lehmer test. -/
theorem lcgModulus_prime : Nat.Prime 2147483647 := by
  have h : (mersenne 31).Prime := lucas_lehmer_sufficiency 31 (by norm_num) (by norm_num)
  have e : mersenne 31 = 2147483647 := by norm_num [mersenne]
  rwa [e] at h

theorem specState_pos_lt (s : ℕ) (h1 : 0 < s) (h2 : s < 2 ^ 31 - 1) :
    ∀ n, 0 < specState s n ∧ specState s n < 2 ^ 31 - 1 := by
  intro n
  induction n with
  | zero => exact ⟨h1, h2⟩
  | succ n ih =>
    have hM : (2 : ℕ) ^ 31 - 1 = 2147483647 := by norm_num
    constructor
    · have hnd : ¬ (2 ^ 31 - 1 : ℕ) ∣ specState s n * 48271 := by
        rw [hM]
        intro hdvd
        rcases (Nat.Prime.dvd_mul lcgModulus_prime).mp hdvd with hc | hc
        · exact absurd (Nat.le_of_dvd ih.1 hc) (by omega)
        · exact absurd (Nat.le_of_dvd (by norm_num) hc) (by norm_num)
      have hne : specState s n * 48271 % (2 ^ 31 - 1) ≠ 0 := by
        intro h0
        exact hnd (Nat.dvd_iff_mod_eq_zero.mpr h0)
      exact Nat.pos_of_ne_zero hne
    · show specState s n * 48271 % (2 ^ 31 - 1) < 2 ^ 31 - 1
      exact Nat.mod_lt _ (by norm_num)

theorem randomCalls_succ_eq (s : ℕ) (h1 : 0 < s) (h2 : s < 2 ^ 31 - 1) (k : ℕ) :
    randomCalls s (k + 1) =
      some ((specState s (k + 1) : ℚ) / 2147483647, specState s (k + 1)) := by
  have hM : (2 : ℕ) ^ 31 - 1 = 2147483647 := by norm_num
  induction k with
  | zero =>
    have hs : s ≠ 0 := h1.ne'
    simp [randomCalls, randomNext, hs, specState, lcgNext, hM]
  | succ n ih =>
    have hpos := (specState_pos_lt s h1 h2 (n + 1)).1
    have hne : specState s (n + 1) ≠ 0 := hpos.ne'
    rw [randomCalls, ih]
    rw [show specState s (n + 1 + 1) = specState s (n + 1) * 48271 % (2 ^ 31 - 1) from rfl, hM]
    simp [randomNext, hne, lcgNext]

/-- Claim C2: for every seed `s` with `0 < s < 2³¹−1`, the k-th call to the
seeded random source's `next()` returns `s_k / (2³¹−1)` where `s₀ = s` and
`sₙ₊₁ = (sₙ · 48271) mod (2³¹−1)`, and every returned value lies in `[0, 1)`.
The states never reach 0 (the modulus is prime), so the unseeded fallback in
`Random.next` is never taken. -/
theorem seeded_random_kth_call (s k : ℕ) (h1 : 0 < s) (h2 : s < 2 ^ 31 - 1) :
    randomCalls s (k + 1) =
      some ((specState s (k + 1) : ℚ) / 2147483647, specState s (k + 1)) ∧
    0 ≤ (specState s (k + 1) : ℚ) / 2147483647 ∧
    (specState s (k + 1) : ℚ) / 2147483647 < 1 := by
  refine ⟨randomCalls_succ_eq s h1 h2 k, by positivity, ?_⟩
  have hlt := (specState_pos_lt s h1 h2 (k + 1)).2
  rw [div_lt_one (by norm_num)]
  have : (specState s (k + 1) : ℚ) < ((2 ^ 31 - 1 : ℕ) : ℚ) := by exact_mod_cast hlt
  calc (specState s (k + 1) : ℚ) < ((2 ^ 31 - 1 : ℕ) : ℚ) := this
    _ = 2147483647 := by norm_num

/-- Witness for C2: seed 42, first call returns `2027382 / 2147483647`. -/
theorem seeded_random_kth_call_witness :
    0 < 42 ∧ 42 < 2 ^ 31 - 1 ∧
    randomCalls 42 1 = some ((2027382 : ℚ) / 2147483647, 2027382) ∧
    0 ≤ (2027382 : ℚ) / 2147483647 ∧ (2027382 : ℚ) / 2147483647 < 1 := by
  have h := seeded_random_kth_call 42 0 (by norm_num) (by norm_num)
  have e : specState 42 1 = 2027382 := by decide
  refine ⟨by norm_num, by norm_num, ?_, ?_, ?_⟩
  · have := h.1; rwa [e] at this
  · have := h.2.1; rwa [e] at this
  · have := h.2.2; rwa [e] at this

/-- Counterexample to claim C6: for the merged options with fill absent and
stroke "none", the resolved fill is not the fallback color — invariant 2
rewrites the stroke to "#000" before invariant 3 runs, so invariant 3 never
fires and the fill stays empty. -/
theorem resolve_fill_fallback_ctex :
    (mergeO { stroke := some "none", fill := none, strokeWidth := none }).fill ≠
        some "#0f0" ∧
    (mergeO { stroke := some "none", fill := none, strokeWidth := none }).fill = none ∧
    (mergeO { stroke := some "none", fill := none, strokeWidth := none }).stroke = "#000" := by
  decide

/-- Claim C6 (amended): for every Options input whose merged fill is empty
(absent, "", or "none"), if the merged stroke is "none" or absent the resolver
sets the stroke to "#000" and leaves the fill unchanged (empty, not the
fallback color); the fallback fill "#0f0" is applied only when the caller
passes the empty-string stroke, which invariant 2 does not rewrite. -/
theorem resolve_fill_fallback (lo : OptionsSF) (hf : fillEmpty lo.fill = true) :
    ((lo.stroke = some "none" ∨ lo.stroke = none) →
      (mergeO lo).stroke = "#000" ∧ (mergeO lo).fill = lo.fill) ∧
    (lo.stroke = some "" → lo.strokeWidth = none → (mergeO lo).fill = some "#0f0") := by
  obtain ⟨st, f, sw⟩ := lo
  simp only [fillEmpty, Bool.or_eq_true, decide_eq_true_eq] at hf
  constructor
  · rintro (rfl | rfl) <;>
    · rcases hf with (rfl | rfl) | rfl <;>
        rcases sw with _ | w <;>
          simp [mergeO, resolvedOptionsSF, applyInvariants, fillEmpty] <;>
            split_ifs <;> simp_all
  · rintro rfl rfl
    rcases hf with (rfl | rfl) | rfl <;>
      simp [mergeO, resolvedOptionsSF, applyInvariants, fillEmpty]

/-- Witness for the amended C6: stroke "none" with no fill resolves to stroke
"#000" and an empty fill; the empty-string stroke with fill "none" resolves to
the fallback fill. -/
theorem resolve_fill_fallback_witness :
    fillEmpty none = true ∧
    (mergeO { stroke := some "none", fill := none, strokeWidth := none }).stroke = "#000" ∧
    fillEmpty (some "none") = true ∧
    (mergeO { stroke := some "", fill := some "none", strokeWidth := none }).fill =
      some "#0f0" :=
  ⟨by decide,
   ((resolve_fill_fallback ⟨some "none", none, none⟩ (by decide)).1 (Or.inl rfl)).1,
   by decide,
   (resolve_fill_fallback ⟨some "", some "none", none⟩ (by decide)).2 rfl rfl⟩

/-- Claim C4 is contradicted by the code: the path string `"5"` — a valid
number token appearing before any command letter — makes `parsePathCommands`
execute `segs[-1].append(val)` on the empty `segs` list, an uncaught
`IndexError`, so `svgPath` raises instead of returning an `OpSet`.  (Genuinely
unrecognizable tokens are skipped, as the second and third conjuncts show:
`"foo"` is dropped, and once a command letter has been seen the numeric tokens
are grouped under it without error.) -/
theorem parsePathCommands_number_first_raises :
    parsePathCommands "5" = none ∧
    parsePathCommands "M foo Z" = some [("M", []), ("Z", [])] ∧
    ((parsePathCommands "M 10 20 foo 30").map fun segs =>
        segs.map fun s => (s.1, s.2.length)) = some [("M", 3)] := by
  refine ⟨by decide, by decide, by decide⟩

theorem arcNormLoop_sub (s t : ℝ) : (arcNormLoop s t).2 - (arcNormLoop s t).1 = t - s := by
  by_cases hs : s < 0
  · rw [arcNormLoop]
    rw [if_pos hs]
    have ih := arcNormLoop_sub (s + 2 * π) (t + 2 * π)
    rw [ih]; ring
  · rw [arcNormLoop, if_neg hs]
termination_by (⌈-s / (2 * π)⌉).toNat
decreasing_by
  have hπ : (0 : ℝ) < 2 * π := by positivity
  have hx : 0 < -s / (2 * π) := by
    apply div_pos (by linarith) hπ
  have hstep : -(s + 2 * π) / (2 * π) = -s / (2 * π) - 1 := by
    field_simp
    ring
  have hceil : ⌈-(s + 2 * π) / (2 * π)⌉ = ⌈-s / (2 * π)⌉ - 1 := by
    rw [hstep, Int.ceil_sub_one]
  have hpos : 1 ≤ ⌈-s / (2 * π)⌉ := Int.ceil_pos.mpr hx
  simp only [hceil]
  omega

theorem arcSpan_eq (s t : ℝ) : arcSpan s t = if 2 * π < t - s then 2 * π else t - s := by
  unfold arcSpan arcNormalize
  rcases lt_or_le (2 * π) (t - s) with h | h
  · rw [if_pos, if_pos h]
    · ring
    · simpa [arcNormLoop_sub s t] using h
  · rw [if_neg, if_neg (not_lt.mpr h)]
    · exact arcNormLoop_sub s t
    · simpa [arcNormLoop_sub s t] using not_lt.mpr h

/-- Claim C8: the arc generator's angle normalization (adding 2π to both angles
while the start is negative, then clamping a sweep beyond 2π to exactly
`[0, 2π]`) yields the same normalized angular span for `(start, stop)` and for
`(start + 2π, stop + 2π)`; in particular for `(-1, 1)` and `(-1 + 2π, 1 + 2π)`. -/
theorem arc_span_shift_invariant :
    (∀ start stop : ℝ, arcSpan (start + 2 * π) (stop + 2 * π) = arcSpan start stop) ∧
    arcSpan (-1 + 2 * π) (1 + 2 * π) = arcSpan (-1) 1 := by
  have h : ∀ start stop : ℝ, arcSpan (start + 2 * π) (stop + 2 * π) = arcSpan start stop := by
    intro a b
    rw [arcSpan_eq, arcSpan_eq]
    have e : b + 2 * π - (a + 2 * π) = b - a := by ring
    rw [e]
  exact ⟨h, h (-1) 1⟩

theorem lineRoughnessGain_nonneg (len : ℝ) : 0 ≤ lineRoughnessGain len := by
  unfold lineRoughnessGain
  split_ifs with h1 h2
  · norm_num
  · push_neg at h1
    linarith
  · norm_num

theorem lineRoughnessGain_le_gainClaim (len : ℝ) :
    lineRoughnessGain len ≤ gainClaim len := by
  unfold lineRoughnessGain gainClaim
  split_ifs with h1 h2 h3 h4 h5 h6 h7 <;> try linarith

theorem lineMoff_nonneg (o : ROpts) (len lenSq : ℝ) (hlen : 0 ≤ len)
    (hm : 0 ≤ o.maxRandomnessOffset) : 0 ≤ lineMoff o len lenSq := by
  unfold lineMoff
  split_ifs
  · positivity
  · exact hm

theorem lineMoff_le (o : ROpts) (len lenSq : ℝ) (h2 : len ^ 2 = lenSq) (hlen : 0 ≤ len)
    (hm : 0 ≤ o.maxRandomnessOffset) : lineMoff o len lenSq ≤ o.maxRandomnessOffset := by
  unfold lineMoff
  split_ifs with hc
  · nlinarith [sq_nonneg (len - 10 * o.maxRandomnessOffset)]
  · exact le_refl _

theorem abs_offsetOpt_le (o : ROpts) (x g : ℝ) (us : ℕ → ℝ) (k : ℕ)
    (hx : 0 ≤ x) (hg : 0 ≤ g) (hr : 0 ≤ o.roughness)
    (hu : us k ∈ Set.Icc (0 : ℝ) 1) :
    |(offsetOpt x o g us k).1| ≤ o.roughness * g * x := by
  obtain ⟨hu0, hu1⟩ := hu
  have hval : (offsetOpt x o g us k).1 = o.roughness * g * (us k * (2 * x) - x) := by
    simp only [offsetOpt, offsetRange, randomFloat]
    ring
  rw [hval, abs_mul]
  have h1 : |o.roughness * g| = o.roughness * g := abs_of_nonneg (by positivity)
  have h2 : |us k * (2 * x) - x| ≤ x := by
    rw [abs_le]
    constructor <;> nlinarith
  rw [h1]
  have := mul_le_mul_of_nonneg_left h2 (by positivity : (0 : ℝ) ≤ o.roughness * g)
  linarith

/-- Claim C3: in every `lineOps` pass (either overlay flavour), each emitted
coordinate lies within `maxRandomnessOffset * roughness * gain` of its ideal
position, where `gain` is the documented length-gain formula (1.0 below
length 200, ramping linearly to 0.4 at length 500, and 0.4 beyond); the code's
own gain (1 below 200, `-0.0016668·len + 1.233334` on `[200, 500]`, 0.4 above
500) never exceeds the documented one, and the effective offset never exceeds
`maxRandomnessOffset`.  Ideal control points retain the diverge point and the
bow displacement, which the spec documents as separate shape ingredients. -/
theorem line_jitter_bound (x1 y1 x2 y2 : ℝ) (o : ROpts) (mv overlay : Bool)
    (us : ℕ → ℝ) (i : ℕ) (hr : 0 ≤ o.roughness) (hm : 0 ≤ o.maxRandomnessOffset)
    (hu : ∀ k, us k ∈ Set.Icc (0 : ℝ) 1) :
    List.Forall₂
      (opWithin (o.maxRandomnessOffset * o.roughness *
        gainClaim (Real.sqrt ((x1 - x2) ^ 2 + (y1 - y2) ^ 2))))
      (lineOps x1 y1 x2 y2 o mv overlay us i).1
      (lineOpsIdeal x1 y1 x2 y2 o mv us i) := by
  have hL0 : 0 ≤ Real.sqrt ((x1 - x2) ^ 2 + (y1 - y2) ^ 2) := Real.sqrt_nonneg _
  have hL2 : Real.sqrt ((x1 - x2) ^ 2 + (y1 - y2) ^ 2) ^ 2 =
      (x1 - x2) ^ 2 + (y1 - y2) ^ 2 := Real.sq_sqrt (by positivity)
  have hg0 := lineRoughnessGain_nonneg (Real.sqrt ((x1 - x2) ^ 2 + (y1 - y2) ^ 2))
  have hgc := lineRoughnessGain_le_gainClaim (Real.sqrt ((x1 - x2) ^ 2 + (y1 - y2) ^ 2))
  have hm0 := lineMoff_nonneg o (Real.sqrt ((x1 - x2) ^ 2 + (y1 - y2) ^ 2))
    ((x1 - x2) ^ 2 + (y1 - y2) ^ 2) hL0 hm
  have hmle := lineMoff_le o (Real.sqrt ((x1 - x2) ^ 2 + (y1 - y2) ^ 2))
    ((x1 - x2) ^ 2 + (y1 - y2) ^ 2) hL2 hL0 hm
  have key : ∀ (k : ℕ) (amt : ℝ), 0 ≤ amt →
      amt ≤ lineMoff o (Real.sqrt ((x1 - x2) ^ 2 + (y1 - y2) ^ 2))
        ((x1 - x2) ^ 2 + (y1 - y2) ^ 2) →
      |(offsetOpt amt o
          (lineRoughnessGain (Real.sqrt ((x1 - x2) ^ 2 + (y1 - y2) ^ 2))) us k).1| ≤
        o.maxRandomnessOffset * o.roughness *
          gainClaim (Real.sqrt ((x1 - x2) ^ 2 + (y1 - y2) ^ 2)) := by
    intro k amt ha hle
    refine le_trans (abs_offsetOpt_le o amt _ us k ha hg0 hr (hu k)) ?_
    have hgc0 : 0 ≤ gainClaim (Real.sqrt ((x1 - x2) ^ 2 + (y1 - y2) ^ 2)) :=
      le_trans hg0 hgc
    have hAM : amt ≤ o.maxRandomnessOffset := le_trans hle hmle
    nlinarith [mul_le_mul hgc hAM ha hgc0]
  have hB0 : 0 ≤ o.maxRandomnessOffset * o.roughness *
      gainClaim (Real.sqrt ((x1 - x2) ^ 2 + (y1 - y2) ^ 2)) :=
    mul_nonneg (mul_nonneg hm hr) (le_trans hg0 hgc)
  have khalf : ∀ k : ℕ,
      |(offsetOpt (if overlay then
          lineMoff o (Real.sqrt ((x1 - x2) ^ 2 + (y1 - y2) ^ 2))
            ((x1 - x2) ^ 2 + (y1 - y2) ^ 2) / 2
        else lineMoff o (Real.sqrt ((x1 - x2) ^ 2 + (y1 - y2) ^ 2))
            ((x1 - x2) ^ 2 + (y1 - y2) ^ 2)) o
          (lineRoughnessGain (Real.sqrt ((x1 - x2) ^ 2 + (y1 - y2) ^ 2))) us k).1| ≤
        o.maxRandomnessOffset * o.roughness *
          gainClaim (Real.sqrt ((x1 - x2) ^ 2 + (y1 - y2) ^ 2)) := by
    intro k
    cases overlay
    · simp only [Bool.false_eq_true, if_false]
      exact key k _ hm0 le_rfl
    · simp only [if_true]
      exact key k _ (by linarith) (by linarith)
  cases mv <;> cases hpv : o.preserveVertices <;>
    simp [lineOps, lineOpsIdeal, hpv, opWithin, List.forall₂_cons,
      add_sub_add_left_eq_sub, add_sub_cancel_left] <;>
    norm_num [khalf, hB0]

/-- Counterexample to claim C7: the multi-point curve generator does not pin
endpoints under `preserveVertices`.  `curveWithOffset` jitters every point —
endpoints included — without consulting `preserveVertices`, so the single
pass generated by `curve` for the four points below (with `preserveVertices`
set, multi-stroke disabled, and every seeded draw equal to 0, which makes
`offsetOpt x` return `-x`) opens with a move to `(-1.2, -1.2)` instead of the
exact input point `(0, 0)`. -/
theorem preserve_vertices_curve_ctex :
    ({ defaultROpts with preserveVertices := true, disableMultiStroke := true }
        : ROpts).preserveVertices = true ∧
    (curveSingle [(0, 0), (10, 0), (20, 10), (30, 0)]
        { defaultROpts with preserveVertices := true, disableMultiStroke := true }
        (fun _ => 0) (fun _ => 0) 0).head? =
      some (Op.mk "move" [-1.2, -1.2]) ∧
    (-1.2 : ℝ) ≠ 0 := by
  refine ⟨rfl, ?_, by norm_num⟩
  simp only [curveSingle, curveWithOffset, cwoPoints, curveOps, catmullWindows,
    offsetOpt, offsetRange, randomFloat, defaultROpts]
  norm_num

/-- Claim C7 (amended): with `preserveVertices` set, the first and last
emitted coordinates of every line pass and of every cubic pass equal the
exact input coordinates: `lineOps` pins its move point to `(x1, y1)` and its
curve endpoint to `(x2, y2)`, and each pass of `cubicBezierOps` opens at the
exact current point and ends at the exact `(ex, ey)` (under
`preserveVertices` its control points are pinned too).  The multi-point curve
generator (`curveWithOffset`) is the exception: it jitters all points,
endpoints included, regardless of `preserveVertices`. -/
theorem preserve_vertices_pins_endpoints (o : ROpts) (hpv : o.preserveVertices = true) :
    (∀ (x1 y1 x2 y2 : ℝ) (overlay : Bool) (us : ℕ → ℝ) (i : ℕ), ∃ a b c d : ℝ,
      (lineOps x1 y1 x2 y2 o true overlay us i).1 =
        [Op.mk "move" [x1, y1], Op.mk "bcurveTo" [a, b, c, d, x2, y2]]) ∧
    (∀ (cx1 cy1 cx2 cy2 ex ey sx sy : ℝ) (us : ℕ → ℝ) (i : ℕ),
      (cubicBezierOps cx1 cy1 cx2 cy2 ex ey (sx, sy) o us i).1 =
        if o.disableMultiStroke then
          [Op.mk "move" [sx, sy], Op.mk "bcurveTo" [cx1, cy1, cx2, cy2, ex, ey]]
        else
          [Op.mk "move" [sx, sy], Op.mk "bcurveTo" [cx1, cy1, cx2, cy2, ex, ey],
           Op.mk "move" [sx, sy], Op.mk "bcurveTo" [cx1, cy1, cx2, cy2, ex, ey]]) := by
  constructor
  · intro x1 y1 x2 y2 overlay us i
    simp [lineOps, hpv]
  · intro cx1 cy1 cx2 cy2 ex ey sx sy us i
    by_cases hd : o.disableMultiStroke <;>
      simp [cubicBezierOps, cubicPass, jitter6, hpv, hd]

/-- Witness for the amended C7: concrete instances of the pinned endpoints. -/
theorem preserve_vertices_pins_endpoints_witness :
    ({ defaultROpts with preserveVertices := true } : ROpts).preserveVertices = true ∧
    (∃ a b c d : ℝ,
      (lineOps 1 2 31 42 { defaultROpts with preserveVertices := true } true false
          (fun _ => 1/2) 0).1 =
        [Op.mk "move" [1, 2], Op.mk "bcurveTo" [a, b, c, d, 31, 42]]) ∧
    (cubicBezierOps 3 4 5 6 7 8 (1, 2) { defaultROpts with preserveVertices := true }
        (fun _ => 1/2) 0).1 =
      [Op.mk "move" [1, 2], Op.mk "bcurveTo" [3, 4, 5, 6, 7, 8],
       Op.mk "move" [1, 2], Op.mk "bcurveTo" [3, 4, 5, 6, 7, 8]] := by
  have h := preserve_vertices_pins_endpoints
    { defaultROpts with preserveVertices := true } rfl
  refine ⟨rfl, h.1 1 2 31 42 false (fun _ => 1/2) 0, ?_⟩
  have h2 := h.2 3 4 5 6 7 8 1 2 (fun _ => 1/2) 0
  simpa [defaultROpts] using h2

theorem scanIter_run (cA sA : ℝ) (rpoly : List (ℝ × ℝ)) (gap maxY : ℝ)
    (hg : 0 < gap) : ∀ (n : ℕ) (y : ℝ), (⌈(maxY - y) / gap⌉ + 1).toNat < n →
    ∃ l, scanIter cA sA rpoly gap maxY n y = some l ∧
      l.length = if maxY < y then 0 else (⌊(maxY - y) / gap⌋ + 1).toNat := by
  intro n
  induction n with
  | zero => intro y hy; omega
  | succ n ih =>
    intro y hy
    by_cases hover : maxY < y
    · refine ⟨[], ?_, ?_⟩
      · simp only [scanIter, if_pos hover]
      · simp [hover]
    · push_neg at hover
      have hq0 : (0 : ℝ) ≤ (maxY - y) / gap := by
        apply div_nonneg (by linarith) hg.le
      have hc0 : 0 ≤ ⌈(maxY - y) / gap⌉ := Int.ceil_nonneg hq0
      have hstep : (maxY - (y + gap)) / gap = (maxY - y) / gap - 1 := by
        field_simp
        ring
      have hcnext : ⌈(maxY - (y + gap)) / gap⌉ = ⌈(maxY - y) / gap⌉ - 1 := by
        rw [hstep, Int.ceil_sub_one]
      have hmnext : (⌈(maxY - (y + gap)) / gap⌉ + 1).toNat < n := by
        rw [hcnext]; omega
      obtain ⟨l', hl', hlen'⟩ := ih (y + gap) hmnext
      refine ⟨(y, scanlineLines cA sA rpoly y) :: l', ?_, ?_⟩
      · simp only [scanIter, if_neg (not_lt.mpr hover), hl']
      · have hf0 : 0 ≤ ⌊(maxY - y) / gap⌋ := Int.floor_nonneg.mpr hq0
        have hfstep : ⌊(maxY - (y + gap)) / gap⌋ = ⌊(maxY - y) / gap⌋ - 1 := by
          rw [hstep]
          exact_mod_cast Int.floor_sub_int ((maxY - y) / gap) 1
        rw [if_neg (not_lt.mpr hover)]
        by_cases hnext : maxY < y + gap
        · have hflt : (maxY - y) / gap < 1 := by
            rw [div_lt_one hg]; linarith
          have hfl0 : ⌊(maxY - y) / gap⌋ = 0 :=
            Int.floor_eq_zero_iff.mpr (Set.mem_Ico.mpr ⟨hq0, hflt⟩)
          have hl0 : l'.length = 0 := by rw [hlen', if_pos hnext]
          simp [hl0, hfl0]
        · push_neg at hnext
          have hge1 : (1 : ℝ) ≤ (maxY - y) / gap := by
            rw [le_div_iff₀ hg]; linarith
          have hf1 : 1 ≤ ⌊(maxY - y) / gap⌋ := by
            exact_mod_cast Int.le_floor.mpr (by exact_mod_cast hge1)
          have hl1 : l'.length = (⌊(maxY - (y + gap)) / gap⌋ + 1).toNat := by
            rw [hlen', if_neg (not_lt.mpr hnext)]
          simp only [List.length_cons, hl1, hfstep]
          omega

/-- Claim C10: the effective scan-line spacing is clamped to at least 0.1, and
for every rotated polygon the scan sweep from its minimum height `y` to
`maxY` completes within the iteration budget — it runs exactly
`⌊(maxY−y)/gap⌋+1` scan lines when `y ≤ maxY`, which is at most
`⌈(maxY−y)/0.1⌉+1`; hence `polygon_hachure_lines` always terminates. -/
theorem hachure_scan_terminates :
    (∀ o : ROpts, 0.1 ≤ effectiveGap o) ∧
    (∀ (cA sA gap maxY y : ℝ) (rpoly : List (ℝ × ℝ)), 0.1 ≤ gap →
      ∃ l, scanIter cA sA rpoly gap maxY (scanFuel gap y maxY) y = some l ∧
        l.length ≤ (⌈(maxY - y) / (0.1 : ℝ)⌉ + 1).toNat) := by
  constructor
  · intro o
    exact le_max_right _ _
  · intro cA sA gap maxY y rpoly hgap
    have hg : (0 : ℝ) < gap := lt_of_lt_of_le (by norm_num) hgap
    obtain ⟨l, hl, hlen⟩ := scanIter_run cA sA rpoly gap maxY hg (scanFuel gap y maxY) y
      (by unfold scanFuel; omega)
    refine ⟨l, hl, ?_⟩
    rw [hlen]
    by_cases hover : maxY < y
    · simp [hover]
    · push_neg at hover
      simp only [not_lt.mpr hover, if_false]
      have hq0 : (0 : ℝ) ≤ maxY - y := by linarith
      have hdivle : (maxY - y) / gap ≤ (maxY - y) / (0.1 : ℝ) := by
        apply div_le_div_of_nonneg_left hq0 (by norm_num) hgap
      have hfc : ⌊(maxY - y) / gap⌋ ≤ ⌈(maxY - y) / (0.1 : ℝ)⌉ :=
        le_trans (Int.floor_le_ceil _) (Int.ceil_le_ceil hdivle)
      omega

/-- Witness for C10: the default options have gap 3.5, and the sweep of the
unit square (rotation by 90°) with gap 1/2 runs within budget and at most
⌈2/0.1⌉+1 iterations. -/
theorem hachure_scan_terminates_witness :
    (0.1 : ℝ) ≤ effectiveGap defaultROpts ∧ ((0.1 : ℝ) ≤ (1/2 : ℝ)) ∧
    (∃ l, scanIter 0 (-1) [(0, 0), (0, 1), (-1, 1), (-1, 0)] (1/2) 1
        (scanFuel (1/2) 0 1) 0 = some l ∧
      l.length ≤ (⌈((1 : ℝ) - 0) / (0.1 : ℝ)⌉ + 1).toNat) :=
  ⟨hachure_scan_terminates.1 defaultROpts, by norm_num,
   hachure_scan_terminates.2 0 (-1) (1/2) 1 0 [(0, 0), (0, 1), (-1, 1), (-1, 0)]
     (by norm_num)⟩

/-- Claim C9 (amended): for `0 < g2 ≤ g1` and a sweep range `minY ≤ maxY`,
the scan with the smaller gap performs at least as many scan-line iterations
as the scan with the larger gap (both complete within budget).  The number of
emitted fill segments, however, is not monotone: a scan line that passes
exactly through a polygon vertex emits no segment, so a smaller gap can
produce strictly fewer segments (see the counterexample). -/
theorem hachure_scan_count_antitone (cA sA g1 g2 mnY mxY : ℝ) (rpoly : List (ℝ × ℝ))
    (hg2 : 0 < g2) (h21 : g2 ≤ g1) (hmm : mnY ≤ mxY) :
    ∃ l1 l2, scanIter cA sA rpoly g1 mxY (scanFuel g1 mnY mxY) mnY = some l1 ∧
      scanIter cA sA rpoly g2 mxY (scanFuel g2 mnY mxY) mnY = some l2 ∧
      l1.length ≤ l2.length := by
  have hg1 : 0 < g1 := lt_of_lt_of_le hg2 h21
  obtain ⟨l1, h1, e1⟩ := scanIter_run cA sA rpoly g1 mxY hg1
    (scanFuel g1 mnY mxY) mnY (by unfold scanFuel; omega)
  obtain ⟨l2, h2, e2⟩ := scanIter_run cA sA rpoly g2 mxY hg2
    (scanFuel g2 mnY mxY) mnY (by unfold scanFuel; omega)
  refine ⟨l1, l2, h1, h2, ?_⟩
  rw [e1, e2, if_neg (not_lt.mpr hmm), if_neg (not_lt.mpr hmm)]
  have hdiv : (mxY - mnY) / g1 ≤ (mxY - mnY) / g2 :=
    div_le_div_of_nonneg_left (by linarith) hg2 h21
  have hfl := Int.floor_le_floor hdiv
  omega

/-- Witness for the amended C9: gaps 1 and 1/2 on the quadrilateral below. -/
theorem hachure_scan_count_antitone_witness :
    (0 : ℝ) < 1/2 ∧ (1/2 : ℝ) ≤ 1 ∧ (0 : ℝ) ≤ 2 ∧
    (∃ l1 l2, scanIter 1 0 [(0, 0), (0, 2), (2, 3/2), (2, 3/4)] 1 2
        (scanFuel 1 0 2) 0 = some l1 ∧
      scanIter 1 0 [(0, 0), (0, 2), (2, 3/2), (2, 3/4)] (1/2) 2
        (scanFuel (1/2) 0 2) 0 = some l2 ∧
      l1.length ≤ l2.length) :=
  ⟨by norm_num, by norm_num, by norm_num,
   hachure_scan_count_antitone 1 0 1 (1/2) 0 2 [(0, 0), (0, 2), (2, 3/2), (2, 3/4)]
     (by norm_num) (by norm_num) (by norm_num)⟩

set_option maxHeartbeats 2000000 in
/-- Counterexample to claim C9: on the convex quadrilateral (0,0), (0,2),
(2,3/2), (2,3/4) with hachure angle -90°, the run with gap 4/5 emits two fill
segments but the run with the strictly smaller gap 3/4 emits none: its scan
lines at heights 3/4 and 3/2 pass exactly through polygon vertices, where the
edge-crossing test excludes both incident edges and the single remaining
crossing yields no span. -/
theorem hachure_gap_ctex :
    (3/4 : ℝ) < 4/5 ∧
    (polygonHachureLinesR (oG45) [[(0, 0), (0, 2), (2, 3/2), (2, 3/4)]]).length = 2 ∧
    (polygonHachureLinesR (oG34) [[(0, 0), (0, 2), (2, 3/2), (2, 3/4)]]).length = 0 := by
  have hang : hachureAngleRad (oG45).hachureAngle = 0 := by
    simp [hachureAngleRad, oG45, oG34, defaultROpts]
  have hang2 : hachureAngleRad (oG34).hachureAngle = 0 := by
    simp [hachureAngleRad, oG45, oG34, defaultROpts]
  have hf1 : scanFuel (4/5) 0 2 = 5 := by
    unfold scanFuel
    rw [show ((2:ℝ) - 0)/(4/5) = 5/2 by norm_num,
      show ⌈(5/2:ℝ)⌉ = 3 from by rw [Int.ceil_eq_iff] <;> norm_num]
    rfl
  have hf2 : scanFuel (3/4) 0 2 = 5 := by
    unfold scanFuel
    rw [show ((2:ℝ) - 0)/(3/4) = 8/3 by norm_num,
      show ⌈(8/3:ℝ)⌉ = 3 from by rw [Int.ceil_eq_iff] <;> norm_num]
    rfl
  have hc1 : ⌈(5/2 : ℝ)⌉ = 3 := by rw [Int.ceil_eq_iff] <;> norm_num
  have hc2 : ⌈(8/3 : ℝ)⌉ = 3 := by rw [Int.ceil_eq_iff] <;> norm_num
  refine ⟨by norm_num, ?_, ?_⟩
  · rw [polygonHachureLinesR, hang]
    norm_num [polygonHachureLines, effectiveGap, minY2, maxY2, rotatePoint,
      scanIter, scanlineLines, scanlineSegments, horizontalIntersectionsNonZero,
      polyEdges, edgeIntersectsScanline, xIntersect, windingStep,
      List.insertionSort, List.orderedInsert, max_def, min_def, abs_lt, oG45, oG34, defaultROpts,
      List.filterMap_cons, List.filterMap_nil, List.foldl_cons, List.foldl_nil,
      hf1, hc1, Real.cos_zero, Real.sin_zero]
  · rw [polygonHachureLinesR, hang2]
    norm_num [polygonHachureLines, effectiveGap, minY2, maxY2, rotatePoint,
      scanIter, scanlineLines, scanlineSegments, horizontalIntersectionsNonZero,
      polyEdges, edgeIntersectsScanline, xIntersect, windingStep,
      List.insertionSort, List.orderedInsert, max_def, min_def, abs_lt, oG45, oG34, defaultROpts,
      List.filterMap_cons, List.filterMap_nil, List.foldl_cons, List.foldl_nil,
      hf2, hc2, Real.cos_zero, Real.sin_zero]

theorem ellipsePointsLoop_ne_nil (increment cx cy rx ry offset endAngle : ℝ)
    (o : ROpts) (us : ℕ → ℝ) (angle : ℝ) (si : ℕ) (h : angle < endAngle) :
    (ellipsePointsLoop increment cx cy rx ry offset endAngle o us
        (ellipseLoopFuel increment angle endAngle) angle si) =
      (((offsetOpt offset o 1 us si).1 + cx + rx * Real.cos angle,
        (offsetOpt offset o 1 us (si + 1)).1 + cy + ry * Real.sin angle) ::
        (ellipsePointsLoop increment cx cy rx ry offset endAngle o us
          ((⌈(endAngle - angle) / increment⌉).toNat) (angle + increment) (si + 2)).1,
       (ellipsePointsLoop increment cx cy rx ry offset endAngle o us
          ((⌈(endAngle - angle) / increment⌉).toNat) (angle + increment) (si + 2)).2) := by
  rw [ellipseLoopFuel]
  rw [ellipsePointsLoop]
  rw [if_pos h]
  simp [offsetOpt, offsetRange, randomFloat]

theorem generateEllipseParams_snd (width height : ℝ) (o : ROpts) (us : ℕ → ℝ)
    (si : ℕ) : (generateEllipseParams width height o us si).2 = si + 2 := by
  simp [generateEllipseParams, offsetOpt, offsetRange, randomFloat]

theorem ellipseR_head (x y width height : ℝ) (o : ROpts) (us : ℕ → ℝ) (si : ℕ)
    (hr : o.roughness ≠ 0) :
    (ellipseR x y width height o us si).1.head? =
      some (Op.mk "move" [x + ellipseFirstDX width height o us si,
                          y + ellipseFirstDY width height o us si]) := by
  have hlt : ∀ r : ℝ, r < π * 2 + r - 0.01 := by
    intro r
    have := Real.pi_gt_three
    linarith
  by_cases hd : o.disableMultiStroke = false ∧ o.roughness ≠ 0
  · simp only [ellipseR, ellipseWithParams, computeEllipsePoints, if_neg hr, if_pos hd,
      ellipsePointsLoop_ne_nil _ _ _ _ _ _ _ _ _ _ _ (hlt _)]
    simp only [curveOps]
    rw [if_pos (by simp)]
    simp only [List.cons_append, List.head?_cons, List.getD, List.getElem?_cons_succ,
      List.getElem?_cons_zero, Option.getD_some, Option.some.injEq]
    simp [ellipseFirstDX, ellipseFirstDY, offsetOpt, offsetRange, randomFloat,
      generateEllipseParams_snd]
    constructor <;> ring_nf
  · simp only [ellipseR, ellipseWithParams, computeEllipsePoints, if_neg hr, if_neg hd,
      ellipsePointsLoop_ne_nil _ _ _ _ _ _ _ _ _ _ _ (hlt _)]
    simp only [curveOps]
    rw [if_pos (by simp)]
    simp only [List.cons_append, List.head?_cons, List.getD, List.getElem?_cons_succ,
      List.getElem?_cons_zero, Option.getD_some, Option.some.injEq]
    simp [ellipseFirstDX, ellipseFirstDY, offsetOpt, offsetRange, randomFloat,
      generateEllipseParams_snd]
    constructor <;> ring_nf

theorem ceil_two_real : ⌈(2 : ℝ)⌉ = 2 := by
  rw [Int.ceil_eq_iff] <;> norm_num

theorem oDots_scanFuel : scanFuel (1/2) 0 1 = 4 := by
  unfold scanFuel
  rw [show ((1 : ℝ) - 0) / (1/2) = 2 by norm_num, ceil_two_real]
  rfl

theorem oDots_angle_cos :
    Real.cos (hachureAngleRad ({ oDots with hachureAngle := 0 } : ROpts).hachureAngle) = 0 ∧
    Real.sin (hachureAngleRad ({ oDots with hachureAngle := 0 } : ROpts).hachureAngle) = -1 := by
  have h : hachureAngleRad ({ oDots with hachureAngle := 0 } : ROpts).hachureAngle
      = -(π / 2) := by
    simp only [hachureAngleRad]
    ring
  rw [h]
  simp

theorem oDots_hachure_lines :
    polygonHachureLinesR ({ oDots with hachureAngle := 0 })
      [[(0, 0), (1, 0), (1, 1), (0, 1)]] = [((1/2, 1), (1/2, 0))] := by
  rw [polygonHachureLinesR, oDots_angle_cos.1, oDots_angle_cos.2]
  norm_num [polygonHachureLines, effectiveGap, minY2, maxY2, rotatePoint, scanIter,
    scanlineLines, scanlineSegments, horizontalIntersectionsNonZero, polyEdges,
    edgeIntersectsScanline, xIntersect, windingStep, List.insertionSort,
    List.orderedInsert, max_def, min_def, abs_lt, List.filterMap_cons,
    List.filterMap_nil, oDots, defaultROpts, oDots_scanFuel]

theorem oDots_run (ug : ℕ → ℝ) :
    (fillPolygonsDots [[(0, 0), (1, 0), (1, 1), (0, 1)]] oDots (lcgStreamR 5)
        ug 0 0).1.ops =
      (ellipseR ((3/8 - 1/8) + ug 0 * (2 * (1/8))) ((3/8 + ug 1 * (2 * (1/8))))
        1 1 oDots (lcgStreamR 5) 0).1 := by
  have hgap : effectiveGap oDots = 1/2 := by
    norm_num [effectiveGap, oDots, defaultROpts, max_def]
  have hlen : lineLength ((1/2, 1), (1/2, 0)) = 1 := by
    norm_num [lineLength]
  simp only [fillPolygonsDots, oDots_hachure_lines, dotsLinesLoop, dotsOnLine,
    hgap, hlen]
  rw [show ((1 : ℝ) / (1/2)) = 2 by norm_num, ceil_two_real]
  norm_num [dotsLoop, oDots, defaultROpts, min_def]

/-- Counterexample to claim C1: with a fixed seed stream (seed 5) and fixed
options (gap 1/2, multi-stroke disabled), two independent generations of the
dots fill of the unit square produce different operation sequences when the
process-global unseeded source (`random.random()`, read by
`DotFiller._dotsOnLines` for the dot-center jitter) yields different values —
here the constant streams 0 and 1/2.  The first emitted move differs by the
dot-center shift 1/8 while every seeded draw cancels. -/
theorem dots_fill_not_seed_deterministic :
    (fillPolygonsDots [[(0, 0), (1, 0), (1, 1), (0, 1)]] oDots (lcgStreamR 5)
        (fun _ => 0) 0 0).1 ≠
      (fillPolygonsDots [[(0, 0), (1, 0), (1, 1), (0, 1)]] oDots (lcgStreamR 5)
        (fun _ => 1/2) 0 0).1 := by
  intro heq
  have h1 : (fillPolygonsDots [[(0, 0), (1, 0), (1, 1), (0, 1)]] oDots (lcgStreamR 5)
      (fun _ => 0) 0 0).1.ops = (ellipseR (1/4) (3/8) 1 1 oDots (lcgStreamR 5) 0).1 := by
    rw [oDots_run (fun _ => 0)]
    norm_num
  have h2 : (fillPolygonsDots [[(0, 0), (1, 0), (1, 1), (0, 1)]] oDots (lcgStreamR 5)
      (fun _ => 1/2) 0 0).1.ops = (ellipseR (3/8) (1/2) 1 1 oDots (lcgStreamR 5) 0).1 := by
    rw [oDots_run (fun _ => 1/2)]
    norm_num
  have hr : oDots.roughness ≠ 0 := by norm_num [oDots, defaultROpts]
  have hh1 := ellipseR_head (1/4) (3/8) 1 1 oDots (lcgStreamR 5) 0 hr
  have hh2 := ellipseR_head (3/8) (1/2) 1 1 oDots (lcgStreamR 5) 0 hr
  have hops := congrArg (fun s : OpSet => s.ops.head?) heq
  simp only [h1, h2] at hops
  rw [hh1, hh2] at hops
  simp only [Option.some.injEq, Op.mk.injEq, List.cons.injEq] at hops
  have := hops.2.1
  linarith

/-- Claim C1 (amended): with a fixed seed stream and options, generation that
draws only on the seeded source is reproducible independently of the
process-global unseeded source: the hachure filler (the default fill style,
representative of every style but "dots") produces identical operation
sequences for any two global streams, and the dot filler is reproducible
exactly when the global stream repeats as well.  Two independent generations
share only the seed, not the global stream, so the "dots" output is not
determined by seed and options alone (see the counterexample). -/
theorem seeded_generation_deterministic (polys : List (List (ℝ × ℝ))) (o : ROpts)
    (us ug ug' : ℕ → ℝ) (si gi : ℕ) :
    fillPolygonsHachure polys o us ug si gi = fillPolygonsHachure polys o us ug' si gi ∧
    (ug = ug' →
      fillPolygonsDots polys o us ug si gi = fillPolygonsDots polys o us ug' si gi) :=
  ⟨rfl, fun h => by rw [h]⟩

/-- Witness for the amended C1. -/
theorem seeded_generation_deterministic_witness :
    fillPolygonsHachure [[(0, 0), (1, 0), (1, 1), (0, 1)]] defaultROpts (lcgStreamR 5)
        (fun _ => 0) 0 0 =
      fillPolygonsHachure [[(0, 0), (1, 0), (1, 1), (0, 1)]] defaultROpts (lcgStreamR 5)
        (fun _ => 1/2) 0 0 ∧
    fillPolygonsDots [[(0, 0), (1, 0), (1, 1), (0, 1)]] defaultROpts (lcgStreamR 5)
        (fun _ => 0) 0 0 =
      fillPolygonsDots [[(0, 0), (1, 0), (1, 1), (0, 1)]] defaultROpts (lcgStreamR 5)
        (fun _ => 0) 0 0 :=
  ⟨(seeded_generation_deterministic [[(0, 0), (1, 0), (1, 1), (0, 1)]] defaultROpts
      (lcgStreamR 5) (fun _ => 0) (fun _ => 1/2) 0 0).1,
   (seeded_generation_deterministic [[(0, 0), (1, 0), (1, 1), (0, 1)]] defaultROpts
      (lcgStreamR 5) (fun _ => 0) (fun _ => 0) 0 0).2 rfl⟩

theorem offsetOpt_setA (x : ℝ) (o : ROpts) (b g : ℝ) (us : ℕ → ℝ) (i : ℕ) :
    offsetOpt x (setA o b) g us i = offsetOpt x o g us i := rfl

theorem offsetRange_setA (mn mx : ℝ) (o : ROpts) (b g : ℝ) (us : ℕ → ℝ) (i : ℕ) :
    offsetRange mn mx (setA o b) g us i = offsetRange mn mx o g us i := rfl

theorem curveOps_setA (points : List (ℝ × ℝ)) (cp : Option (ℝ × ℝ)) (o : ROpts)
    (b : ℝ) (us : ℕ → ℝ) (i : ℕ) :
    curveOps points cp (setA o b) us i = curveOps points cp o us i := rfl

theorem generateEllipseParams_setA (w h : ℝ) (o : ROpts) (b : ℝ) (us : ℕ → ℝ)
    (si : ℕ) :
    generateEllipseParams w h (setA o b) us si = generateEllipseParams w h o us si := rfl

theorem setA_roughness (o : ROpts) (b : ℝ) : (setA o b).roughness = o.roughness := rfl

theorem setA_disableMultiStroke (o : ROpts) (b : ℝ) :
    (setA o b).disableMultiStroke = o.disableMultiStroke := rfl

theorem setA_fillWeight (o : ROpts) (b : ℝ) : (setA o b).fillWeight = o.fillWeight := rfl

theorem setA_strokeWidth (o : ROpts) (b : ℝ) : (setA o b).strokeWidth = o.strokeWidth := rfl

theorem setA_maxRandomnessOffset (o : ROpts) (b : ℝ) :
    (setA o b).maxRandomnessOffset = o.maxRandomnessOffset := rfl

theorem setA_bowing (o : ROpts) (b : ℝ) : (setA o b).bowing = o.bowing := rfl

theorem setA_preserveVertices (o : ROpts) (b : ℝ) :
    (setA o b).preserveVertices = o.preserveVertices := rfl

theorem setA_disableMultiStrokeFill (o : ROpts) (b : ℝ) :
    (setA o b).disableMultiStrokeFill = o.disableMultiStrokeFill := rfl

theorem setA_curveTightness (o : ROpts) (b : ℝ) :
    (setA o b).curveTightness = o.curveTightness := rfl

theorem setA_curveFitting (o : ROpts) (b : ℝ) :
    (setA o b).curveFitting = o.curveFitting := rfl

theorem setA_curveStepCount (o : ROpts) (b : ℝ) :
    (setA o b).curveStepCount = o.curveStepCount := rfl

theorem setA_hachureGap (o : ROpts) (b : ℝ) : (setA o b).hachureGap = o.hachureGap := rfl

theorem effectiveGap_setA (o : ROpts) (b : ℝ) :
    effectiveGap (setA o b) = effectiveGap o := rfl

theorem ellipsePointsLoop_setA (inc cx cy rx ry off endA : ℝ) (o : ROpts) (b : ℝ)
    (us : ℕ → ℝ) :
    ∀ (fuel : ℕ) (ang : ℝ) (si : ℕ),
      ellipsePointsLoop inc cx cy rx ry off endA (setA o b) us fuel ang si =
        ellipsePointsLoop inc cx cy rx ry off endA o us fuel ang si := by
  intro fuel
  induction fuel with
  | zero => intro ang si; rfl
  | succ n ih => intro ang si; simp only [ellipsePointsLoop, offsetOpt_setA, ih]

theorem computeEllipsePoints_setA (inc cx cy rx ry off overlap : ℝ) (o : ROpts)
    (b : ℝ) (us : ℕ → ℝ) (si : ℕ) :
    computeEllipsePoints inc cx cy rx ry off overlap (setA o b) us si =
      computeEllipsePoints inc cx cy rx ry off overlap o us si := by
  simp only [computeEllipsePoints, setA_roughness, offsetOpt_setA,
    ellipsePointsLoop_setA]

theorem ellipseWithParams_setA (x y : ℝ) (o : ROpts) (b rx ry inc : ℝ)
    (us : ℕ → ℝ) (si : ℕ) :
    ellipseWithParams x y (setA o b) rx ry inc us si =
      ellipseWithParams x y o rx ry inc us si := by
  simp only [ellipseWithParams, offsetRange_setA, computeEllipsePoints_setA,
    curveOps_setA, setA_disableMultiStroke, setA_roughness]

theorem ellipseR_setA (x y w h : ℝ) (o : ROpts) (b : ℝ) (us : ℕ → ℝ) (si : ℕ) :
    ellipseR x y w h (setA o b) us si = ellipseR x y w h o us si := by
  simp only [ellipseR, generateEllipseParams_setA, ellipseWithParams_setA]

theorem dotsLoop_setA (fw gap ro x mY off : ℝ) (o : ROpts) (b : ℝ) (us ug : ℕ → ℝ) :
    ∀ (k i si gi : ℕ),
      dotsLoop fw gap ro x mY off (setA o b) us ug k i si gi =
        dotsLoop fw gap ro x mY off o us ug k i si gi := by
  intro k
  induction k with
  | zero => intro i si gi; rfl
  | succ n ih => intro i si gi; simp only [dotsLoop, ellipseR_setA, ih]

theorem dotsOnLine_setA (ln : (ℝ × ℝ) × (ℝ × ℝ)) (o : ROpts) (b : ℝ)
    (us ug : ℕ → ℝ) (si gi : ℕ) :
    dotsOnLine ln (setA o b) us ug si gi = dotsOnLine ln o us ug si gi := by
  simp only [dotsOnLine, effectiveGap_setA, setA_fillWeight, setA_strokeWidth,
    dotsLoop_setA]

theorem dotsLinesLoop_setA (o : ROpts) (b : ℝ) (us ug : ℕ → ℝ) :
    ∀ (lines : List ((ℝ × ℝ) × (ℝ × ℝ))) (si gi : ℕ),
      dotsLinesLoop (setA o b) us ug lines si gi = dotsLinesLoop o us ug lines si gi := by
  intro lines
  induction lines with
  | nil => intro si gi; rfl
  | cons ln rest ih => intro si gi; simp only [dotsLinesLoop, dotsOnLine_setA, ih]

theorem dotCentersFrom_succ (gap ro x mY off : ℝ) (ug : ℕ → ℝ) (k i gi : ℕ) :
    dotCentersFrom gap ro x mY off ug (k + 1) i gi =
      ((x - ro) + ug gi * (2 * ro),
       (mY + off + (i : ℝ) * gap - ro) + ug (gi + 1) * (2 * ro)) ::
        dotCentersFrom gap ro x mY off ug k (i + 1) (gi + 2) := by
  unfold dotCentersFrom
  rw [List.range_succ_eq_map, List.map_cons, List.map_map]
  refine congrArg₂ List.cons (by norm_num) ?_
  refine List.map_congr_left fun j hj => ?_
  have e1 : gi + 2 * (j + 1) = gi + 2 + 2 * j := by ring
  have e2 : i + (j + 1) = i + 1 + j := by ring
  simp only [Function.comp_apply, Nat.succ_eq_add_one, e1, e2]

theorem dotsLoop_run (fw gap ro x mY off : ℝ) (o : ROpts) (us ug : ℕ → ℝ) :
    ∀ (k i si gi : ℕ),
      dotsLoop fw gap ro x mY off o us ug k i si gi =
        ((ellipseJoin fw o us (dotCentersFrom gap ro x mY off ug k i gi) si).1,
         (ellipseJoin fw o us (dotCentersFrom gap ro x mY off ug k i gi) si).2,
         gi + 2 * k) := by
  intro k
  induction k with
  | zero =>
      intro i si gi
      simp [dotsLoop, dotCentersFrom, ellipseJoin]
  | succ n ih =>
      intro i si gi
      rw [dotsLoop, dotCentersFrom_succ, ellipseJoin, ih]
      refine Prod.ext rfl (Prod.ext rfl ?_)
      simp only []
      omega

theorem oDotsB_gap : effectiveGap oDotsB = 1 := by
  norm_num [effectiveGap, oDotsB, defaultROpts, max_def]

theorem lineLen02 : lineLength ((0, 0), (0, 2)) = 2 := by
  show Real.sqrt (((0 : ℝ) - 0) ^ 2 + ((0 : ℝ) - 2) ^ 2) = 2
  rw [show ((0 : ℝ) - 0) ^ 2 + ((0 : ℝ) - 2) ^ 2 = (2 : ℝ) ^ 2 by norm_num]
  exact Real.sqrt_sq (by norm_num)

theorem oDotsB_run (ug : ℕ → ℝ) :
    (dotsOnLine ((0, 0), (0, 2)) oDotsB (lcgStreamR 7) ug 0 0).1 =
      (ellipseR (-(1/2) + ug 0 * (2 * (1/4))) (3/4 + ug 1 * (2 * (1/4)))
        1 1 oDotsB (lcgStreamR 7) 0).1 := by
  simp only [dotsOnLine, oDotsB_gap, lineLen02]
  rw [show (2 : ℝ) / 1 = 2 by norm_num, ceil_two_real]
  norm_num [dotsLoop, oDotsB, defaultROpts, min_def]

/-- Counterexample to claim C5: the dot-center displacement is not drawn from
the seeded Random Source owned by the resolved options but from the
process-global unseeded `random.random()` (src/rough/fillers/dot_filler.py
lines 55-56): on the segment (0,0)–(0,2) with gap 1, holding the seeded
stream fixed (seed 7) while the global stream changes from the constant 0 to
the constant 1/2 moves the single dot's center from (-1/2, 3/4) to
(-1/4, 1), so the emitted operations differ. -/
theorem dots_jitter_not_seeded :
    (dotsOnLine ((0, 0), (0, 2)) oDotsB (lcgStreamR 7) (fun _ => 0) 0 0).1 ≠
      (dotsOnLine ((0, 0), (0, 2)) oDotsB (lcgStreamR 7) (fun _ => 1/2) 0 0).1 := by
  intro heq
  have h1 : (dotsOnLine ((0, 0), (0, 2)) oDotsB (lcgStreamR 7) (fun _ => 0) 0 0).1 =
      (ellipseR (-(1/2)) (3/4) 1 1 oDotsB (lcgStreamR 7) 0).1 := by
    rw [oDotsB_run (fun _ => 0)]
    norm_num
  have h2 : (dotsOnLine ((0, 0), (0, 2)) oDotsB (lcgStreamR 7) (fun _ => 1/2) 0 0).1 =
      (ellipseR (-(1/4)) 1 1 1 oDotsB (lcgStreamR 7) 0).1 := by
    rw [oDotsB_run (fun _ => 1/2)]
    norm_num
  have hr : oDotsB.roughness ≠ 0 := by norm_num [oDotsB, defaultROpts]
  have hh1 := ellipseR_head (-(1/2)) (3/4) 1 1 oDotsB (lcgStreamR 7) 0 hr
  have hh2 := ellipseR_head (-(1/4)) 1 1 1 oDotsB (lcgStreamR 7) 0 hr
  have hops := congrArg (fun l : List Op => l.head?) heq
  simp only [h1, h2] at hops
  rw [hh1, hh2] at hops
  simp only [Option.some.injEq, Op.mk.injEq, List.cons.injEq] at hops
  have := hops.2.1
  linarith

/-- Claim C5 (amended): the dot filler regenerates the hachure lines with the
hachure angle forced to 0° — the caller's hachure angle is irrelevant to the
output; along each resulting line of length `L` it places exactly
`max 0 (⌈L / gap⌉ - 1)` dots, one ellipse per center, the centers evenly
spaced `gap` apart starting at `minY + (L - count·gap)`; each center is
displaced from its ideal position by at most `gap / 4` in each axis.  The dot
ellipses have diameter `fillWeight` (or half the stroke width), not radius
`gap / 4` — that quantity is the jitter amplitude — and the displacement is
drawn from the process-global unseeded source, not the seeded Random Source
(see the counterexample). -/
theorem dots_fill_placement (polys : List (List (ℝ × ℝ))) (ln : (ℝ × ℝ) × (ℝ × ℝ))
    (o : ROpts) (a : ℝ) (us ug : ℕ → ℝ) (si gi : ℕ) :
    fillPolygonsDots polys (setA o a) us ug si gi =
      fillPolygonsDots polys o us ug si gi ∧
    dotsOnLine ln o us ug si gi =
      ((ellipseJoin (if 0 ≤ o.fillWeight then o.fillWeight else o.strokeWidth * 0.5)
          o us (dotCenters ln o ug gi) si).1,
       (ellipseJoin (if 0 ≤ o.fillWeight then o.fillWeight else o.strokeWidth * 0.5)
          o us (dotCenters ln o ug gi) si).2,
       gi + 2 * (⌈lineLength ln / effectiveGap o⌉ - 1).toNat) ∧
    (dotCenters ln o ug gi).length = (⌈lineLength ln / effectiveGap o⌉ - 1).toNat ∧
    ((∀ k, ug k ∈ Set.Icc (0 : ℝ) 1) → ∀ j, j < (dotCenters ln o ug gi).length →
      |((dotCenters ln o ug gi).getD j (0, 0)).1 - dotIdealX ln o| ≤
        effectiveGap o / 4 ∧
      |((dotCenters ln o ug gi).getD j (0, 0)).2 - dotIdealY ln o j| ≤
        effectiveGap o / 4) := by
  refine ⟨?_, ?_, ?_, ?_⟩
  · simp only [fillPolygonsDots, dotsLinesLoop_setA, setA_maxRandomnessOffset,
      setA_roughness, setA_bowing, setA_preserveVertices, setA_disableMultiStroke,
      setA_disableMultiStrokeFill, setA_curveTightness, setA_curveFitting,
      setA_curveStepCount, setA_hachureGap, setA_strokeWidth, setA_fillWeight]
  · simp only [dotsOnLine, dotCenters]
    exact dotsLoop_run _ _ _ _ _ _ o us ug _ 0 si gi
  · simp [dotCenters, dotCentersFrom]
  · intro hug j hj
    have hjk : j < (⌈lineLength ln / effectiveGap o⌉ - 1).toNat := by
      simpa [dotCenters, dotCentersFrom] using hj
    have hget : (dotCenters ln o ug gi).getD j (0, 0) =
        (((ln.1.1 + ln.2.1) * 0.5 - effectiveGap o * 0.25 - effectiveGap o / 4) +
           ug (gi + 2 * j) * (2 * (effectiveGap o / 4)),
         (min ln.1.2 ln.2.2 +
            (lineLength ln -
              (⌈lineLength ln / effectiveGap o⌉ - 1).toNat * effectiveGap o) +
            (j : ℝ) * effectiveGap o - effectiveGap o / 4) +
           ug (gi + 2 * j + 1) * (2 * (effectiveGap o / 4))) := by
      have hjk2 : j < ⌈lineLength ln / effectiveGap o⌉.toNat - 1 := by omega
      simp [dotCenters, dotCentersFrom, List.getD_eq_getElem?_getD,
        List.getElem?_map, List.getElem?_range hjk2]
    rw [hget]
    have hu1 := hug (gi + 2 * j)
    have hu2 := hug (gi + 2 * j + 1)
    rw [Set.mem_Icc] at hu1 hu2
    have hg : (0.1 : ℝ) ≤ effectiveGap o := le_max_right _ _
    constructor
    · rw [dotIdealX, abs_le]
      constructor <;> nlinarith [hu1.1, hu1.2, hg]
    · rw [dotIdealY, abs_le]
      constructor <;> nlinarith [hu2.1, hu2.2, hg]

/-- Witness for the amended C5: on the segment (0,0)–(0,2) with gap 1 the dot
filler places exactly one dot, and its center's x displacement is at most
1/4. -/
theorem dots_fill_placement_witness :
    (dotCenters ((0, 0), (0, 2)) oDotsB (fun _ => 1/2) 0).length = 1 ∧
    |((dotCenters ((0, 0), (0, 2)) oDotsB (fun _ => 1/2) 0).getD 0 (0, 0)).1 -
        dotIdealX ((0, 0), (0, 2)) oDotsB| ≤ effectiveGap oDotsB / 4 := by
  have h := dots_fill_placement [] ((0, 0), (0, 2)) oDotsB 0 (lcgStreamR 7)
    (fun _ => 1/2) 0 0
  have hone : (⌈lineLength ((0, 0), (0, 2)) / effectiveGap oDotsB⌉ - 1).toNat = 1 := by
    rw [lineLen02, oDotsB_gap]
    rw [show (2 : ℝ) / 1 = 2 by norm_num, ceil_two_real]
    rfl
  have hlen : (dotCenters ((0, 0), (0, 2)) oDotsB (fun _ => 1/2) 0).length = 1 :=
    h.2.2.1.trans hone
  have hug : ∀ k : ℕ, (fun _ : ℕ => (1 : ℝ)/2) k ∈ Set.Icc (0 : ℝ) 1 := by
    intro k
    rw [Set.mem_Icc]
    norm_num
  exact ⟨hlen, (h.2.2.2 hug 0 (by rw [hlen]; norm_num)).1⟩

/-- Witness for claim C3: the default options on the segment (0,0)–(30,40)
(length 50, gain 1) with the constant stream 1/2, main pass with move. -/
theorem line_jitter_bound_witness :
    (0 : ℝ) ≤ defaultROpts.roughness ∧ (0 : ℝ) ≤ defaultROpts.maxRandomnessOffset ∧
    (∀ k : ℕ, (fun _ : ℕ => (1 : ℝ)/2) k ∈ Set.Icc (0 : ℝ) 1) ∧
    List.Forall₂
      (opWithin (defaultROpts.maxRandomnessOffset * defaultROpts.roughness *
        gainClaim (Real.sqrt (((0 : ℝ) - 30) ^ 2 + ((0 : ℝ) - 40) ^ 2))))
      (lineOps 0 0 30 40 defaultROpts true false (fun _ => 1/2) 0).1
      (lineOpsIdeal 0 0 30 40 defaultROpts true (fun _ => 1/2) 0) := by
  have hug : ∀ k : ℕ, (fun _ : ℕ => (1 : ℝ)/2) k ∈ Set.Icc (0 : ℝ) 1 := by
    intro k
    rw [Set.mem_Icc]
    norm_num
  exact ⟨by norm_num [defaultROpts], by norm_num [defaultROpts], hug,
    line_jitter_bound 0 0 30 40 defaultROpts true false (fun _ => 1/2) 0
      (by norm_num [defaultROpts]) (by norm_num [defaultROpts]) hug⟩

end RoughPy
